import Mathlib

/-!
Shallow embedding of the termpdf-core engine (`src/termpdf-core/src/lib.rs`)
and proofs about its navigation, search, link, cache and selection logic.

Modelling conventions:
* `f32` values (scales, viewport offsets, rectangle coordinates) are modelled
  as exact rationals; `f32::EPSILON` is the rational `2^-23`.
* Rust `Vec` stacks are Lean lists with the top of the stack at the head.
* `HashMap` state (marks, the render cache) is modelled as association lists
  whose insert replaces an existing binding; iteration order of the render
  cache is the list order (the theorems proved about it only depend on
  order-independent data).
* Strings are lists of characters; byte offsets of the Rust code become
  list indices.  Out-of-range slicing, which would panic in Rust, is
  modelled by the total `List.drop`/`List.take`.
* Fallible operations (`anyhow::Result`) return `Except Err`; backend trait
  calls are fields of `DocumentBackendModel`.  The per-document page-text
  cache is omitted: the modelled backend is a pure function, so the cache is
  observationally transparent.
-/

namespace Termpdf

abbrev Err := List Char

abbrev Str := List Char

/-- Rational model of `f32::EPSILON` (2^-23). -/
def EPS : ℚ := 1 / 8388608

/-- Rust `f32::clamp`: `if self < min { min } else if self > max { max } else { self }`. -/
def clampQ (x lo hi : ℚ) : ℚ := if x < lo then lo else if x > hi then hi else x

/-! ### ViewportOffset (`lib.rs` lines 51-94) -/

structure ViewportOffset where
  x : ℚ
  y : ℚ
deriving DecidableEq, Repr

instance : Inhabited ViewportOffset := ⟨⟨0, 0⟩⟩

/-- `ViewportOffset::reset`. -/
def ViewportOffset.reset (_ : ViewportOffset) : ViewportOffset := ⟨0, 0⟩

/-- `ViewportOffset::adjust`: per-axis move, clamped to `[0,1]`, reporting change. -/
def ViewportOffset.adjust (v : ViewportOffset) (deltaX deltaY : ℚ) : ViewportOffset × Bool :=
  let xStep :=
    if |deltaX| > EPS then
      let next := clampQ (v.x + deltaX) 0 1
      if |next - v.x| > EPS then (next, true) else (v.x, false)
    else (v.x, false)
  let yStep :=
    if |deltaY| > EPS then
      let next := clampQ (v.y + deltaY) 0 1
      if |next - v.y| > EPS then (next, true) else (v.y, false)
    else (v.y, false)
  (⟨xStep.1, yStep.1⟩, xStep.2 || yStep.2)

/-- `ViewportOffset::clamp`. -/
def ViewportOffset.clampBox (v : ViewportOffset) : ViewportOffset :=
  ⟨clampQ v.x 0 1, clampQ v.y 0 1⟩

/-! ### DocumentPosition and JumpHistory (`lib.rs` lines 248-327) -/

def JUMP_HISTORY_CAPACITY : Nat := 128

structure DocumentPosition where
  page : Nat
  scale : ℚ
  viewport : ViewportOffset
deriving DecidableEq, Repr

structure JumpHistory where
  backStack : List DocumentPosition
  forwardStack : List DocumentPosition
  lastKnown : Option DocumentPosition
deriving DecidableEq, Repr

def JumpHistory.empty : JumpHistory := ⟨[], [], none⟩

/-- Shared body of `JumpHistory::push_back` / `push_forward`: skip the push when the
top already equals the position, then drop the oldest entries over capacity. -/
def pushStack (stack : List DocumentPosition) (pos : DocumentPosition) :
    List DocumentPosition :=
  if stack.head? = some pos then stack
  else (pos :: stack).take JUMP_HISTORY_CAPACITY

def JumpHistory.recordInitial (h : JumpHistory) (pos : DocumentPosition) : JumpHistory :=
  { h with lastKnown := some pos }

/-- `JumpHistory::record_navigation`. -/
def JumpHistory.recordNavigation (h : JumpHistory) (fromPos toPos : DocumentPosition) :
    JumpHistory :=
  if fromPos = toPos then h
  else
    { backStack := pushStack h.backStack fromPos
      forwardStack := []
      lastKnown := some toPos }

/-- `JumpHistory::record_current`. -/
def JumpHistory.recordCurrent (h : JumpHistory) (pos : DocumentPosition) : JumpHistory :=
  { h with lastKnown := some pos }

/-- The pop-and-skip loop shared by `jump_backward` / `jump_forward`: pop entries equal
to `cur`, return the first differing entry together with the remaining stack. -/
def jumpPopLoop (cur : DocumentPosition) :
    List DocumentPosition → Option (DocumentPosition × List DocumentPosition)
  | [] => none
  | t :: rest => if t = cur then jumpPopLoop cur rest else some (t, rest)

/-- `JumpHistory::jump_backward`. -/
def JumpHistory.jumpBackward (h : JumpHistory) (cur : DocumentPosition) :
    Option DocumentPosition × JumpHistory :=
  match jumpPopLoop cur h.backStack with
  | none => (none, { h with backStack := [] })
  | some (t, rest) =>
      (some t,
        { backStack := rest
          forwardStack := pushStack h.forwardStack cur
          lastKnown := some t })

/-- `JumpHistory::jump_forward`. -/
def JumpHistory.jumpForward (h : JumpHistory) (cur : DocumentPosition) :
    Option DocumentPosition × JumpHistory :=
  match jumpPopLoop cur h.forwardStack with
  | none => (none, { h with forwardStack := [] })
  | some (t, rest) =>
      (some t,
        { backStack := pushStack h.backStack cur
          forwardStack := rest
          lastKnown := some t })

/-! ### Normalized rectangles (`lib.rs` lines 382-412) -/

structure NormalizedRect where
  left : ℚ
  top : ℚ
  right : ℚ
  bottom : ℚ
deriving DecidableEq, Repr

/-- `NormalizedRect::clamp`. -/
def NormalizedRect.clampRect (r : NormalizedRect) : NormalizedRect :=
  ⟨clampQ r.left 0 1, clampQ r.top 0 1, clampQ r.right 0 1, clampQ r.bottom 0 1⟩

/-- `NormalizedRect::is_valid`. -/
def NormalizedRect.isValid (r : NormalizedRect) : Bool :=
  decide (r.left < r.right) && decide (r.top < r.bottom)

/-- `NormalizedRect::contains`. -/
def NormalizedRect.containsPt (r : NormalizedRect) (x y : ℚ) : Bool :=
  decide (r.left ≤ x) && decide (x ≤ r.right) && decide (r.top ≤ y) && decide (y ≤ r.bottom)

/-- `NormalizedRect::center`. -/
def NormalizedRect.center (r : NormalizedRect) : ℚ × ℚ :=
  ((r.left + r.right) / 2, (r.top + r.bottom) / 2)

/-! ### Render cache (`lib.rs` lines 1815-1869) -/

def CACHE_CAPACITY : Nat := 10

structure CacheKey where
  pageIndex : Nat
  scaleMilli : Nat
  darkMode : Bool
deriving DecidableEq, Repr

/-- `CacheKey::distance` (`abs_diff` with the reference page). -/
def CacheKey.distance (k : CacheKey) (referencePage : Nat) : Nat :=
  max k.pageIndex referencePage - min k.pageIndex referencePage

structure RenderImage where
  width : Nat
  height : Nat
  pixels : List Nat
deriving DecidableEq, Repr

abbrev RenderCache := List (CacheKey × RenderImage)

/-- `HashMap::insert`: replace any binding of `key`, add the new one. -/
def cacheInsert (cache : RenderCache) (key : CacheKey) (image : RenderImage) : RenderCache :=
  (key, image) :: cache.filter (fun e => decide (e.1 ≠ key))

/-- `DocumentInstance::store_cached_render`: insert, then if over capacity rank keys by
distance from the reference page and keep only the nearest `CACHE_CAPACITY`. -/
def storeCachedRender (cache : RenderCache) (key : CacheKey) (image : RenderImage)
    (referencePage : Nat) : RenderCache :=
  let cache1 := cacheInsert cache key image
  if cache1.length > CACHE_CAPACITY then
    let keys :=
      (cache1.map Prod.fst).insertionSort
        (fun a b => a.distance referencePage ≤ b.distance referencePage)
    let keep := keys.take CACHE_CAPACITY
    cache1.filter (fun e => decide (e.1 ∈ keep))
  else cache1

/-- Iterated insertion, all with the same reference page. -/
def storeAll (puts : List (CacheKey × RenderImage)) (referencePage : Nat) : RenderCache :=
  puts.foldl (fun c p => storeCachedRender c p.1 p.2 referencePage) []

/-- Distances of a key list from the reference page, in ascending order. -/
def sortedDistances (keys : List CacheKey) (referencePage : Nat) : List Nat :=
  (keys.map (fun k => k.distance referencePage)).insertionSort (· ≤ ·)

/-! ### Page text and the derived line map (`lib.rs` lines 128-221) -/

structure TextGlyph where
  rangeStart : Nat
  rangeEnd : Nat
  rect : NormalizedRect
deriving DecidableEq, Repr

structure PageLine where
  glyphStart : Nat
  glyphEnd : Nat
  centerY : ℚ
deriving DecidableEq, Repr

/-- Replace the last element of a list, if any (`lines.last_mut()`). -/
def updateLast (lines : List PageLine) (f : PageLine → PageLine) : List PageLine :=
  match lines.getLast? with
  | none => lines
  | some l => lines.dropLast ++ [f l]

/-- One iteration of the `build_line_map` loop over `(idx, glyph)`. -/
def buildLineMapStep (threshold : ℚ) (idx : Nat) (g : TextGlyph)
    (state : List PageLine × List Nat × Option ℚ) :
    List PageLine × List Nat × Option ℚ :=
  let lines := state.1
  let glyphLineIndex := state.2.1
  let lastCenter := state.2.2
  let center := (g.rect.top + g.rect.bottom) / 2
  let newLine :=
    match lastCenter with
    | some prev => decide (|prev - center| > threshold)
    | none => true
  let lines1 := if newLine then lines ++ [⟨idx, idx, center⟩] else lines
  match lines1.getLast? with
  | none => (lines1, glyphLineIndex, some center)
  | some _ =>
      (updateLast lines1 (fun l =>
          ⟨l.glyphStart, idx + 1, l.centerY * (4 / 5) + center * (1 / 5)⟩),
        glyphLineIndex ++ [lines1.length - 1], some center)

def buildLineMapLoop (threshold : ℚ) :
    List TextGlyph → Nat → (List PageLine × List Nat × Option ℚ) →
      List PageLine × List Nat × Option ℚ
  | [], _, state => state
  | g :: rest, idx, state =>
      buildLineMapLoop threshold rest (idx + 1) (buildLineMapStep threshold idx g state)

/-- `build_line_map`: group glyphs into lines by vertical proximity (threshold 0.015),
smoothing each line's tracked center with weights 0.8/0.2. -/
def buildLineMap (glyphs : List TextGlyph) : List PageLine × List Nat :=
  if glyphs.isEmpty then ([], [])
  else
    let threshold : ℚ := 15 / 1000
    let result := buildLineMapLoop threshold glyphs 0 ([], [], none)
    (result.1, result.2.1)

structure PageText where
  text : Str
  glyphs : List TextGlyph
  boundaryOffsets : List Nat
  lineMap : List PageLine
  glyphLineIndex : List Nat
deriving DecidableEq, Repr

/-- `PageText::new`: boundary offsets are `0` followed by each glyph's clamped range end. -/
def PageText.new (text : Str) (glyphs : List TextGlyph) : PageText :=
  let boundaryOffsets := 0 :: glyphs.map (fun g => min g.rangeEnd text.length)
  let lineData := buildLineMap glyphs
  ⟨text, glyphs, boundaryOffsets, lineData.1, lineData.2⟩

def PageText.glyphCount (t : PageText) : Nat := t.glyphs.length

/-- `PageText::boundary_offset`: out-of-range boundaries map to the text length. -/
def PageText.boundaryOffset (t : PageText) (boundary : Nat) : Nat :=
  match t.boundaryOffsets.get? boundary with
  | none => t.text.length
  | some v => v

def PageText.lineIndexForGlyph (t : PageText) (index : Nat) : Option Nat :=
  t.glyphLineIndex.get? index

/-- `PageText::glyph_char`: first character of the glyph's slice of the text. -/
def PageText.glyphChar (t : PageText) (index : Nat) : Option Char :=
  match t.glyphs.get? index with
  | none => none
  | some g => ((t.text.drop g.rangeStart).take (g.rangeEnd - g.rangeStart)).head?

/-! ### Search, link and selection state (`lib.rs` lines 329-509) -/

structure SearchMatch where
  page : Nat
  rects : List NormalizedRect
deriving DecidableEq, Repr

structure SearchState where
  query : Str
  /-- Rust field `matches` (a Lean keyword). -/
  matchList : List SearchMatch
  currentIndex : Option Nat
deriving DecidableEq, Repr

inductive LinkAction
  | goTo (page : Nat)
  | uri (u : Str)
  | unsupported
deriving DecidableEq, Repr

structure LinkDefinition where
  rects : List NormalizedRect
  action : LinkAction
deriving DecidableEq, Repr

structure LinkEntry where
  page : Nat
  rects : List NormalizedRect
  action : LinkAction
deriving DecidableEq, Repr

structure LinkState where
  links : List LinkEntry
  currentIndex : Option Nat
deriving DecidableEq, Repr

inductive ExternalLink
  | url (u : Str)
  | file (p : Str)
deriving DecidableEq, Repr

inductive LinkFollowResult
  | navigated (pageChanged : Bool)
  | external (target : ExternalLink)
  | unsupported
  | noActiveLink
deriving DecidableEq, Repr

inductive SearchDirection
  | forward
  | backward
deriving DecidableEq, Repr

inductive SelectionMotion
  | left
  | right
  | up
  | down
  | wordForward
  | wordBackward
  | lineStart
  | lineEnd
  | documentStart
  | documentEnd
  | pageForward
  | pageBackward
deriving DecidableEq, Repr

structure SelectionPoint where
  page : Nat
  glyphIndex : Nat
deriving DecidableEq, Repr

structure SelectionState where
  anchor : SelectionPoint
  head : SelectionPoint
deriving DecidableEq, Repr

structure SelectionSnapshot where
  startPt : SelectionPoint
  endPt : SelectionPoint
deriving DecidableEq, Repr

/-- `compare_points`: lexicographic on `(page, glyph_index)`. -/
def comparePoints (a b : SelectionPoint) : Ordering :=
  match compare a.page b.page with
  | Ordering.eq => compare a.glyphIndex b.glyphIndex
  | o => o

/-- `SelectionState::normalized`. -/
def SelectionState.normalized (s : SelectionState) : SelectionSnapshot :=
  if comparePoints s.anchor s.head = Ordering.gt then ⟨s.head, s.anchor⟩
  else ⟨s.anchor, s.head⟩

/-! ### Commands and session events (`lib.rs` lines 1871-1951) -/

inductive Command
  | nextPage (count : Nat)
  | prevPage (count : Nat)
  | gotoPage (page : Nat)
  | scaleBy (factor : ℚ)
  | resetScale
  | adjustViewport (deltaX deltaY : ℚ)
  | putMark (key : Char)
  | gotoMark (key : Char)
  | saveNamedMark (name : Str)
  | gotoNamedMark (name : Str)
  | search (query : Str)
  | searchNext (count : Nat)
  | searchPrev (count : Nat)
  | enterVisualMode
  | startSelection
  | moveVisualCursor (motion : SelectionMotion) (count : Nat)
  | clearSelection
  | leaveVisualMode
  | restoreSelection
  | swapVisualCursor
  | enterLinkMode
  | leaveLinkMode
  | linkNext (count : Nat)
  | linkPrev (count : Nat)
  | activateLink
  | toggleDarkMode
  | switchDocument (index : Nat)
  | jumpBackward
  | jumpForward
deriving DecidableEq, Repr

inductive SessionEvent
  | documentOpened (id : Nat)
  | documentClosed (id : Nat)
  | activeDocumentChanged (id : Nat)
  | redrawNeeded (id : Nat)
  | followExternalLink (target : ExternalLink)
deriving DecidableEq, Repr

/-! ### Document instances (`lib.rs` lines 511-525, 2030-2045) -/

/-- The backend trait calls the engine depends on, as pure fallible functions. -/
structure DocumentBackendModel where
  pageText : Nat → Except Err PageText
  searchPage : Nat → Str → Except Err (List (List NormalizedRect))
  pageLinks : Nat → Except Err (List LinkDefinition)

/-- The state of one `DocumentInstance` (persisted state inlined). -/
structure Doc where
  docId : Nat
  pageCount : Nat
  backend : DocumentBackendModel
  currentPage : Nat
  scale : ℚ
  darkMode : Bool
  viewport : ViewportOffset
  marks : List (Char × Nat)
  namedMarks : List (Str × Nat)
  jumpHistory : JumpHistory
  searchState : Option SearchState
  linkState : Option LinkState
  selectionState : Option SelectionState
  visualCursor : Option SelectionPoint
  lastSelection : Option SelectionSnapshot
  visualColumnHint : ℚ

structure Session where
  documents : List Doc
  active : Nat
  events : List SessionEvent

/-! ### Association-list model of `HashMap` marks -/

def alistInsert {κ : Type} [DecidableEq κ] (m : List (κ × Nat)) (k : κ) (v : Nat) :
    List (κ × Nat) :=
  (k, v) :: m.filter (fun p => decide (p.1 ≠ k))

def alistGet {κ : Type} [DecidableEq κ] (m : List (κ × Nat)) (k : κ) : Option Nat :=
  (m.find? (fun p => decide (p.1 = k))).map Prod.snd

/-! ### Document position plumbing (`lib.rs` lines 1378-1440) -/

def Doc.currentPosition (d : Doc) : DocumentPosition :=
  ⟨d.currentPage, d.scale, d.viewport⟩

def Doc.recordJumpFrom (d : Doc) (previous : DocumentPosition) : Doc :=
  { d with jumpHistory := d.jumpHistory.recordNavigation previous d.currentPosition }

def Doc.syncJumpPosition (d : Doc) : Doc :=
  { d with jumpHistory := d.jumpHistory.recordCurrent d.currentPosition }

/-- `load_cached_page_text` / `DocumentInstance::page_text_entry` (cache elided,
see the module docstring): range check, then the backend call. -/
def Doc.pageTextEntry (d : Doc) (pageIndex : Nat) : Except Err PageText :=
  if pageIndex ≥ d.pageCount then Except.error ['o', 'o', 'r']
  else d.backend.pageText pageIndex

/-- `DocumentInstance::apply_document_position`: clamp page, scale and viewport,
re-apply the scale/viewport invariant and re-sync the jump history. -/
def Doc.applyDocumentPosition (d : Doc) (pos : DocumentPosition) : Doc × Bool :=
  let lastPage := d.pageCount - 1
  let targetPage := min pos.page lastPage
  let pageStep : Nat × Bool :=
    if targetPage ≠ d.currentPage then (targetPage, true) else (d.currentPage, false)
  let targetScale := clampQ pos.scale (1 / 4) 4
  let scaleStep : ℚ × Bool :=
    if |d.scale - targetScale| > EPS then (targetScale, true) else (d.scale, pageStep.2)
  let nextViewport := pos.viewport.clampBox
  let viewportStep : ViewportOffset × Bool :=
    if |d.viewport.x - nextViewport.x| > EPS ∨ |d.viewport.y - nextViewport.y| > EPS then
      (nextViewport, true)
    else if scaleStep.2 then (nextViewport, scaleStep.2)
    else (d.viewport, scaleStep.2)
  let finalViewport :=
    if scaleStep.1 ≤ 1 + EPS then viewportStep.1.reset else viewportStep.1.clampBox
  let d1 : Doc :=
    { d with currentPage := pageStep.1, scale := scaleStep.1, viewport := finalViewport }
  (d1.syncJumpPosition, viewportStep.2)

def Doc.popJumpBackward (d : Doc) : Option DocumentPosition × Doc :=
  let result := d.jumpHistory.jumpBackward d.currentPosition
  (result.1, { d with jumpHistory := result.2 })

def Doc.popJumpForward (d : Doc) : Option DocumentPosition × Doc :=
  let result := d.jumpHistory.jumpForward d.currentPosition
  (result.1, { d with jumpHistory := result.2 })

/-! ### Search engine (`lib.rs` lines 534-612, 1442-1557) -/

/-- Rust `str::find` on the character-list model: index of the first occurrence. -/
def strFind (needle : Str) : Str → Option Nat
  | [] => if needle.isEmpty then some 0 else none
  | c :: rest =>
      if needle.isPrefixOf (c :: rest) then some 0
      else (strFind needle rest).map (fun i => i + 1)

/-- Rust `str::to_lowercase`, character-wise. -/
def toLowerStr (s : Str) : Str := s.map Char.toLower

/-- Rust `str::trim`. -/
def trimStr (s : Str) : Str :=
  ((s.dropWhile Char.isWhitespace).reverse.dropWhile Char.isWhitespace).reverse

/-- The substring-scan loop of `build_search_matches`: collect match offsets, stepping
by `step` past each hit, guarding against a non-advancing scan. -/
def searchLoop (lower queryLower : Str) (step : Nat) (offset : Nat) : List Nat :=
  if h : offset < lower.length then
    match strFind queryLower (lower.drop offset) with
    | some pos =>
        let absolute := offset + pos
        let next := absolute + step
        if hn : next ≤ offset then [absolute]
        else absolute :: searchLoop lower queryLower step next
    | none => []
  else []
termination_by lower.length - offset
decreasing_by omega

/-- `DocumentSearchContext::build_search_matches`: per page, prefer backend hits
(clamped and validated); otherwise scan the page text case-insensitively.  Backend
and text-extraction failures on a page are logged and skipped. -/
def buildSearchMatches (d : Doc) (query : Str) : Except Err (List SearchMatch) :=
  if query.isEmpty then Except.ok []
  else
    let queryLower := toLowerStr query
    let step := max queryLower.length 1
    Except.ok ((List.range d.pageCount).flatMap (fun page =>
      let pageMatches :=
        match d.backend.searchPage page query with
        | Except.ok rectSets => rectSets
        | Except.error _ => []
      if ¬pageMatches.isEmpty then
        pageMatches.map (fun rects =>
          { page := page
            rects := (rects.map NormalizedRect.clampRect).filter NormalizedRect.isValid })
      else
        match d.pageTextEntry page with
        | Except.ok pageText =>
            if pageText.text.isEmpty then []
            else
              let lower := toLowerStr pageText.text
              (searchLoop lower queryLower step 0).map
                (fun _ => { page := page, rects := [] })
        | Except.error _ => []))

/-- `DocumentInstance::apply_search_index`. -/
def Doc.applySearchIndex (d : Doc) (index : Nat) : Doc × Bool :=
  match d.searchState with
  | none => (d, false)
  | some st =>
      if st.matchList.isEmpty ∨ index ≥ st.matchList.length then
        ({ d with searchState := some { st with currentIndex := none } }, false)
      else
        let d1 : Doc := { d with searchState := some { st with currentIndex := some index } }
        let targetPage := min (st.matchList.getD index ⟨0, []⟩).page (d.pageCount - 1)
        let previous := d1.currentPosition
        if targetPage ≠ d1.currentPage then
          let d2 : Doc := { d1 with currentPage := targetPage, viewport := d1.viewport.reset }
          ((d2.recordJumpFrom previous).syncJumpPosition, true)
        else (d1.syncJumpPosition, false)

/-- `DocumentInstance::advance_search`. -/
def Doc.advanceSearch (d : Doc) (direction : SearchDirection) (count : Nat) :
    Option Bool × Doc :=
  if count = 0 then (some false, d)
  else
    match d.searchState with
    | none => (none, d)
    | some st =>
        if st.matchList.isEmpty then (some false, d)
        else
          let total := st.matchList.length
          let current := st.currentIndex.getD 0
          if total = 0 then (some false, d)
          else
            let steps := count % total
            if steps = 0 then
              let r := d.applySearchIndex current
              (some r.2, r.1)
            else
              let target :=
                match direction with
                | SearchDirection.forward => (current + steps) % total
                | SearchDirection.backward => (current + total - steps) % total
              let r := d.applySearchIndex target
              (some r.2, r.1)

def Doc.nextSearchMatch (d : Doc) (count : Nat) : Option Bool × Doc :=
  d.advanceSearch SearchDirection.forward count

def Doc.previousSearchMatch (d : Doc) (count : Nat) : Option Bool × Doc :=
  d.advanceSearch SearchDirection.backward count

/-- `DocumentInstance::apply_search_results`. -/
def Doc.applySearchResults (d : Doc) (query : Str) (matchList : List SearchMatch)
    (startPage : Nat) : Doc × Bool :=
  if query.isEmpty then
    (({ d with searchState := none } : Doc).syncJumpPosition, false)
  else
    let startPage := min startPage (d.pageCount - 1)
    let nextIndex :=
      if matchList.isEmpty then none
      else some ((matchList.findIdx? (fun m => decide (startPage ≤ m.page))).getD 0)
    let d1 : Doc := { d with searchState := some ⟨query, matchList, nextIndex⟩ }
    match nextIndex with
    | some idx => d1.applySearchIndex idx
    | none => (d1.syncJumpPosition, false)

/-- `DocumentInstance::perform_search`. -/
def Doc.performSearch (d : Doc) (query : Str) : Except Err (Doc × Bool) :=
  let trimmed := trimStr query
  if trimmed.isEmpty then
    Except.ok (({ d with searchState := none } : Doc).syncJumpPosition, false)
  else
    match buildSearchMatches d trimmed with
    | Except.error e => Except.error e
    | Except.ok ms => Except.ok (d.applySearchResults trimmed ms d.currentPage)

/-! ### Link navigator (`lib.rs` lines 1623-1813) -/

/-- The per-page body of `build_link_entries`: clamp and validate each definition's
rectangles, dropping definitions with no valid rectangle left. -/
def pageLinkEntries (page : Nat) (definitions : List LinkDefinition) : List LinkEntry :=
  definitions.filterMap (fun defn =>
    let rects := (defn.rects.map NormalizedRect.clampRect).filter NormalizedRect.isValid
    if rects.isEmpty then none else some ⟨page, rects, defn.action⟩)

/-- The page loop of `build_link_entries` over `remaining` pages starting at `page`;
a backend failure on any page is propagated via `?`. -/
def buildLinkEntriesAux (d : Doc) : Nat → Nat → Except Err (List LinkEntry)
  | _, 0 => Except.ok []
  | page, remaining + 1 =>
      match d.backend.pageLinks page with
      | Except.error e => Except.error e
      | Except.ok definitions =>
          match buildLinkEntriesAux d (page + 1) remaining with
          | Except.error e => Except.error e
          | Except.ok rest =>
              Except.ok
                ((if definitions.isEmpty then [] else pageLinkEntries page definitions) ++ rest)

/-- `DocumentInstance::build_link_entries`. -/
def Doc.buildLinkEntries (d : Doc) : Except Err (List LinkEntry) :=
  buildLinkEntriesAux d 0 d.pageCount

/-- `DocumentInstance::start_link_mode`. -/
def Doc.startLinkMode (d : Doc) : Except Err Doc :=
  match d.buildLinkEntries with
  | Except.error e => Except.error e
  | Except.ok entries =>
      let currentIndex := entries.findIdx? (fun link => decide (link.page = d.currentPage))
      Except.ok { d with linkState := some ⟨entries, currentIndex⟩ }

def Doc.clearLinkState (d : Doc) : Doc := { d with linkState := none }

/-- `DocumentInstance::apply_link_index`. -/
def Doc.applyLinkIndex (d : Doc) (index : Nat) : Doc × Bool :=
  match d.linkState with
  | none => (d, false)
  | some st =>
      if st.links.isEmpty ∨ index ≥ st.links.length then
        ({ d with linkState := some { st with currentIndex := none } }, false)
      else
        let d1 : Doc := { d with linkState := some { st with currentIndex := some index } }
        let link := st.links.getD index ⟨0, [], LinkAction.unsupported⟩
        let targetPage := min link.page (d.pageCount - 1)
        let previous := d1.currentPosition
        if targetPage ≠ d1.currentPage then
          let d2 : Doc := { d1 with currentPage := targetPage, viewport := d1.viewport.reset }
          ((d2.recordJumpFrom previous).syncJumpPosition, true)
        else (d1.syncJumpPosition, false)

/-- `DocumentInstance::advance_link`: the first call with no current index seeds it
(first link on the current page, else the first beyond it, else index 0) and applies
it without stepping; later calls step with modulo wraparound. -/
def Doc.advanceLink (d : Doc) (direction : SearchDirection) (count : Nat) :
    Option Bool × Doc :=
  if count = 0 then (some false, d)
  else
    match d.linkState with
    | none => (none, d)
    | some st =>
        if st.links.isEmpty then (some false, d)
        else
          match st.currentIndex with
          | none =>
              let desired :=
                (((st.links.findIdx? (fun link => decide (link.page = d.currentPage))).orElse
                    (fun _ =>
                      st.links.findIdx? (fun link => decide (d.currentPage < link.page)))).getD
                  0)
              let d1 : Doc :=
                { d with linkState := some { st with currentIndex := some desired } }
              let r := d1.applyLinkIndex desired
              (some r.2, r.1)
          | some currentIndex =>
              let total := st.links.length
              let current := min currentIndex (total - 1)
              let steps := count % total
              if steps = 0 then
                let r := d.applyLinkIndex current
                (some r.2, r.1)
              else
                let target :=
                  match direction with
                  | SearchDirection.forward => (current + steps) % total
                  | SearchDirection.backward => (current + total - steps) % total
                let r := d.applyLinkIndex target
                (some r.2, r.1)

def Doc.nextLink (d : Doc) (count : Nat) : Option Bool × Doc :=
  d.advanceLink SearchDirection.forward count

def Doc.previousLink (d : Doc) (count : Nat) : Option Bool × Doc :=
  d.advanceLink SearchDirection.backward count

/-- `DocumentInstance::activate_link`. -/
def Doc.activateLink (d : Doc) : LinkFollowResult × Doc :=
  match d.linkState with
  | none => (LinkFollowResult.noActiveLink, d)
  | some st =>
      match st.currentIndex with
      | none => (LinkFollowResult.noActiveLink, d)
      | some index =>
          match st.links.get? index with
          | none => (LinkFollowResult.noActiveLink, d)
          | some link =>
              match link.action with
              | LinkAction.goTo page =>
                  let targetPage := min page (d.pageCount - 1)
                  let previous := d.currentPosition
                  if targetPage ≠ d.currentPage then
                    let d1 : Doc :=
                      { d with currentPage := targetPage, viewport := d.viewport.reset }
                    (LinkFollowResult.navigated true,
                      (d1.recordJumpFrom previous).syncJumpPosition)
                  else (LinkFollowResult.navigated false, d.syncJumpPosition)
              | LinkAction.uri u =>
                  (LinkFollowResult.external (ExternalLink.url u), d)
              | LinkAction.unsupported => (LinkFollowResult.unsupported, d)

/-! ### Selection engine (`lib.rs` lines 634-1194) -/

/-- `is_word_char` (Rust's Unicode `is_alphanumeric` modelled by `Char.isAlphanum`). -/
def isWordChar (ch : Char) : Bool := ch.isAlphanum || ch == '_'

/-- The scan loop of `glyph_near_point`: first valid rectangle containing the point,
else the valid rectangle with the smallest squared center distance. -/
def glyphScan (x y : ℚ) : List TextGlyph → Nat → Nat → Option ℚ → Nat
  | [], _, bestIndex, _ => bestIndex
  | g :: rest, idx, bestIndex, bestScore =>
      if g.rect.isValid && g.rect.containsPt x y then idx
      else if g.rect.isValid then
        let c := g.rect.center
        let dx := c.1 - x
        let dy := c.2 - y
        let score := dx * dx + dy * dy
        match bestScore with
        | some bs =>
            if score < bs then glyphScan x y rest (idx + 1) idx (some score)
            else glyphScan x y rest (idx + 1) bestIndex bestScore
        | none => glyphScan x y rest (idx + 1) idx (some score)
      else glyphScan x y rest (idx + 1) bestIndex bestScore

/-- `glyph_near_point`. -/
def glyphNearPoint (t : PageText) (x y : ℚ) : Nat :=
  if t.glyphs.isEmpty then 0 else glyphScan x y t.glyphs 0 0 none

/-- `DocumentInstance::clamp_point`. -/
def Doc.clampPoint (d : Doc) (point : SelectionPoint) : Except Err SelectionPoint :=
  if d.pageCount = 0 then Except.ok ⟨0, 0⟩
  else
    let page := if point.page ≥ d.pageCount then d.pageCount - 1 else point.page
    match d.pageTextEntry page with
    | Except.error e => Except.error e
    | Except.ok t => Except.ok ⟨page, min point.glyphIndex t.glyphCount⟩

/-- `DocumentInstance::initial_cursor_point`. -/
def Doc.initialCursorPoint (d : Doc) : Except Err SelectionPoint :=
  match d.visualCursor with
  | some point => d.clampPoint point
  | none =>
      let page := min d.currentPage (d.pageCount - 1)
      match d.pageTextEntry page with
      | Except.error e => Except.error e
      | Except.ok pageText =>
          let glyphIndex :=
            if pageText.glyphs.isEmpty then 0
            else glyphNearPoint pageText d.viewport.x d.viewport.y
          Except.ok ⟨page, glyphIndex⟩

/-- `DocumentInstance::cursor_center`. -/
def Doc.cursorCenter (d : Doc) (point : SelectionPoint) : Option (ℚ × ℚ) :=
  match d.pageTextEntry point.page with
  | Except.error _ => none
  | Except.ok t =>
      if t.glyphCount = 0 then none
      else
        let idx := min point.glyphIndex (t.glyphCount - 1)
        match t.glyphs.get? idx with
        | none => none
        | some g => if g.rect.isValid then some g.rect.center else none

/-- `DocumentInstance::update_column_hint`. -/
def Doc.updateColumnHint (d : Doc) (point : SelectionPoint) : Doc :=
  match d.cursorCenter point with
  | some c => { d with visualColumnHint := c.1 }
  | none => d

/-- `DocumentInstance::ensure_visual_cursor`. -/
def Doc.ensureVisualCursor (d : Doc) : Except Err (Doc × Bool) :=
  match d.visualCursor with
  | some point =>
      match d.clampPoint point with
      | Except.error e => Except.error e
      | Except.ok clamped =>
          if clamped ≠ point then
            Except.ok
              (({ d with visualCursor := some clamped } : Doc).updateColumnHint clamped, true)
          else Except.ok (d, false)
  | none =>
      if d.pageCount = 0 then Except.ok (d, false)
      else
        match d.initialCursorPoint with
        | Except.error e => Except.error e
        | Except.ok point =>
            Except.ok
              (({ d with visualCursor := some point } : Doc).updateColumnHint point, true)

/-- `DocumentInstance::start_selection`. -/
def Doc.startSelection (d : Doc) : Except Err (Doc × Bool) :=
  match d.selectionState with
  | some _ => Except.ok (d, false)
  | none =>
      match d.ensureVisualCursor with
      | Except.error e => Except.error e
      | Except.ok (d1, _) =>
          match d1.visualCursor with
          | none => Except.ok (d1, false)
          | some point =>
              Except.ok ({ d1 with selectionState := some ⟨point, point⟩ }, true)

/-- `DocumentInstance::increment_point`. -/
def Doc.incrementPoint (d : Doc) (point : SelectionPoint) :
    Except Err (SelectionPoint × Bool) :=
  match d.pageTextEntry point.page with
  | Except.error e => Except.error e
  | Except.ok t =>
      if point.glyphIndex < t.glyphCount then
        Except.ok (⟨point.page, point.glyphIndex + 1⟩, true)
      else if point.page + 1 < d.pageCount then Except.ok (⟨point.page + 1, 0⟩, true)
      else Except.ok (point, false)

/-- `DocumentInstance::decrement_point`. -/
def Doc.decrementPoint (d : Doc) (point : SelectionPoint) :
    Except Err (SelectionPoint × Bool) :=
  if point.glyphIndex > 0 then Except.ok (⟨point.page, point.glyphIndex - 1⟩, true)
  else if point.page = 0 then Except.ok (point, false)
  else
    match d.pageTextEntry (point.page - 1) with
    | Except.error e => Except.error e
    | Except.ok t => Except.ok (⟨point.page - 1, t.glyphCount⟩, true)

/-- The incrementing loop of `adjust_point` (`for _ in 0..delta`). -/
def Doc.adjustPointUp (d : Doc) : SelectionPoint → Nat → Bool → Except Err (SelectionPoint × Bool)
  | point, 0, moved => Except.ok (point, moved)
  | point, n + 1, moved =>
      match d.incrementPoint point with
      | Except.error e => Except.error e
      | Except.ok (next, true) => d.adjustPointUp next n true
      | Except.ok (_, false) => Except.ok (point, moved)

/-- The decrementing loop of `adjust_point` (`for _ in 0..(-delta)`). -/
def Doc.adjustPointDown (d : Doc) :
    SelectionPoint → Nat → Bool → Except Err (SelectionPoint × Bool)
  | point, 0, moved => Except.ok (point, moved)
  | point, n + 1, moved =>
      match d.decrementPoint point with
      | Except.error e => Except.error e
      | Except.ok (next, true) => d.adjustPointDown next n true
      | Except.ok (_, false) => Except.ok (point, moved)

/-- `DocumentInstance::adjust_point`. -/
def Doc.adjustPoint (d : Doc) (point : SelectionPoint) (delta : Int) :
    Except Err (SelectionPoint × Bool) :=
  if delta = 0 then Except.ok (point, false)
  else if delta > 0 then d.adjustPointUp point delta.toNat false
  else d.adjustPointDown point (-delta).toNat false

/-- `DocumentInstance::move_pages`. -/
def Doc.movePages (d : Doc) (point : SelectionPoint) (delta : Int) :
    Except Err (SelectionPoint × Bool) :=
  if delta = 0 ∨ d.pageCount = 0 then Except.ok (point, false)
  else
    let maxPage : Int := ((d.pageCount - 1 : Nat) : Int)
    let target := max 0 (min ((point.page : Int) + delta) maxPage)
    if target.toNat = point.page then Except.ok (point, false)
    else
      match d.pageTextEntry target.toNat with
      | Except.error e => Except.error e
      | Except.ok t => Except.ok (⟨target.toNat, min point.glyphIndex t.glyphCount⟩, true)

/-- The loop of `move_lines`, `remaining` counted down to zero (`down` fixes the sign). -/
def Doc.moveLinesLoop (d : Doc) (down : Bool) :
    SelectionPoint → Nat → Bool → Except Err (SelectionPoint × Bool)
  | point, 0, moved => Except.ok (point, moved)
  | point, n + 1, moved =>
      match d.pageTextEntry point.page with
      | Except.error e => Except.error e
      | Except.ok pageText =>
          if pageText.lineMap.isEmpty then
            if down then
              if point.page + 1 ≥ d.pageCount then Except.ok (point, moved)
              else d.moveLinesLoop down ⟨point.page + 1, 0⟩ n true
            else
              if point.page = 0 then Except.ok (point, moved)
              else d.moveLinesLoop down ⟨point.page - 1, 0⟩ n true
          else
            let glyphCount := pageText.glyphCount
            let idx := if glyphCount = 0 then 0 else min point.glyphIndex (glyphCount - 1)
            let lineIdx := (pageText.lineIndexForGlyph idx).getD (pageText.lineMap.length - 1)
            if down then
              if lineIdx + 1 < pageText.lineMap.length then
                let start := (pageText.lineMap.getD (lineIdx + 1) ⟨0, 0, 0⟩).glyphStart
                d.moveLinesLoop down ⟨point.page, start⟩ n true
              else if point.page + 1 ≥ d.pageCount then Except.ok (point, moved)
              else d.moveLinesLoop down ⟨point.page + 1, 0⟩ n true
            else
              if lineIdx > 0 then
                let start := (pageText.lineMap.getD (lineIdx - 1) ⟨0, 0, 0⟩).glyphStart
                d.moveLinesLoop down ⟨point.page, start⟩ n true
              else if point.page = 0 then Except.ok (point, moved)
              else
                match d.pageTextEntry (point.page - 1) with
                | Except.error e => Except.error e
                | Except.ok prevText =>
                    match prevText.lineMap.getLast? with
                    | some prevLine =>
                        d.moveLinesLoop down ⟨point.page - 1, prevLine.glyphStart⟩ n true
                    | none => d.moveLinesLoop down ⟨point.page - 1, 0⟩ n true

/-- `DocumentInstance::move_lines`. -/
def Doc.moveLines (d : Doc) (point : SelectionPoint) (delta : Int) :
    Except Err (SelectionPoint × Bool) :=
  if delta = 0 then Except.ok (point, false)
  else d.moveLinesLoop (decide (delta > 0)) point delta.natAbs false

/-- `DocumentInstance::move_to_line_boundary`. -/
def Doc.moveToLineBoundary (d : Doc) (point : SelectionPoint) (toStart : Bool) :
    Except Err (SelectionPoint × Bool) :=
  match d.pageTextEntry point.page with
  | Except.error e => Except.error e
  | Except.ok pageText =>
      if pageText.lineMap.isEmpty then Except.ok (point, false)
      else
        let glyphCount := pageText.glyphCount
        let idx := if glyphCount = 0 then 0 else min point.glyphIndex (glyphCount - 1)
        let lineIdx := (pageText.lineIndexForGlyph idx).getD (pageText.lineMap.length - 1)
        let line := pageText.lineMap.getD lineIdx ⟨0, 0, 0⟩
        let targetIndex := if toStart then line.glyphStart else min line.glyphEnd glyphCount
        if point.glyphIndex = targetIndex then Except.ok (point, false)
        else Except.ok (⟨point.page, targetIndex⟩, true)

/-- Glyph count of a page as the backend reports it (0 on failure); used only to
measure progress of the `skip_while` loops. -/
def Doc.glyphCountAt (d : Doc) (p : Nat) : Nat :=
  match d.backend.pageText p with
  | Except.ok t => t.glyphCount
  | Except.error _ => 0

/-- Sum of `glyphCountAt + 1` over the pages before `p`. -/
def pagePrefixSum (d : Doc) : Nat → Nat
  | 0 => 0
  | p + 1 => pagePrefixSum d p + (d.glyphCountAt p + 1)

/-- Linear position of a selection point, glyph index capped at the page's glyph
count; strictly increased by a successful `increment_point`. -/
def Doc.cappedPos (d : Doc) (point : SelectionPoint) : Nat :=
  pagePrefixSum d point.page + min point.glyphIndex (d.glyphCountAt point.page)

def Doc.maxPos (d : Doc) : Nat := pagePrefixSum d d.pageCount

/-- The forward direction of the `skip_while` loop. -/
def Doc.skipWhileUpLoop (d : Doc) (pred : Char → Bool) (point : SelectionPoint)
    (changed : Bool) : Except Err (SelectionPoint × Bool) :=
  match hpt : d.pageTextEntry point.page with
  | Except.error e => Except.error e
  | Except.ok pageText =>
      if point.glyphIndex ≥ pageText.glyphCount then
        match hinc : d.incrementPoint point with
        | Except.error e => Except.error e
        | Except.ok (next, true) => d.skipWhileUpLoop pred next true
        | Except.ok (_, false) => Except.ok (point, changed)
      else
        match pageText.glyphChar point.glyphIndex with
        | some ch =>
            if pred ch then
              match hinc : d.incrementPoint point with
              | Except.error e => Except.error e
              | Except.ok (next, true) => d.skipWhileUpLoop pred next true
              | Except.ok (_, false) => Except.ok (point, changed)
            else Except.ok (point, changed)
        | none => Except.ok (point, changed)
termination_by d.maxPos - d.cappedPos point
decreasing_by
all_goals
  simp only [Doc.pageTextEntry] at hpt
  split at hpt
  · exact absurd hpt (by simp)
  · rename_i hplt
    have hgca : d.glyphCountAt point.page = pageText.glyphCount := by
      simp [Doc.glyphCountAt, hpt]
    have hmono : ∀ a b : Nat, a ≤ b → pagePrefixSum d a ≤ pagePrefixSum d b := by
      intro a b hab
      induction hab with
      | refl => exact Nat.le_refl _
      | step _ ih => exact Nat.le_trans ih (by simp [pagePrefixSum])
    simp only [Doc.incrementPoint, Doc.pageTextEntry, if_neg hplt, hpt] at hinc
    split at hinc
    · rename_i hlt2
      simp only [Except.ok.injEq, Prod.mk.injEq] at hinc
      obtain ⟨hn, -⟩ := hinc
      subst hn
      have h1 : d.cappedPos ⟨point.page, point.glyphIndex + 1⟩ = d.cappedPos point + 1 := by
        simp only [Doc.cappedPos, hgca]
        omega
      have h2 : d.cappedPos point + 1 ≤ d.maxPos := by
        have h3 : d.cappedPos point + 1 ≤ pagePrefixSum d (point.page + 1) := by
          simp only [Doc.cappedPos, pagePrefixSum, hgca]
          omega
        have h4 := hmono (point.page + 1) d.pageCount (by omega)
        simp only [Doc.maxPos]
        omega
      omega
    · split at hinc
      · rename_i hpage2
        simp only [Except.ok.injEq, Prod.mk.injEq] at hinc
        obtain ⟨hn, -⟩ := hinc
        subst hn
        have h1 : d.cappedPos ⟨point.page + 1, 0⟩ = d.cappedPos point + 1 := by
          simp only [Doc.cappedPos, pagePrefixSum, hgca]
          omega
        have h2 : d.cappedPos point + 1 ≤ d.maxPos := by
          have h3 : d.cappedPos point + 1 ≤ pagePrefixSum d (point.page + 1) := by
            simp only [Doc.cappedPos, pagePrefixSum, hgca]
            omega
          have h4 := hmono (point.page + 1) d.pageCount (by omega)
          simp only [Doc.maxPos]
          omega
        omega
      · simp at hinc

/-- The backward direction of the `skip_while` loop. -/
def Doc.skipWhileDownLoop (d : Doc) (pred : Char → Bool) (point : SelectionPoint)
    (changed : Bool) : Except Err (SelectionPoint × Bool) :=
  match hpt : d.pageTextEntry point.page with
  | Except.error e => Except.error e
  | Except.ok pageText =>
      if hz : point.glyphIndex = 0 then
        match hdec : d.decrementPoint point with
        | Except.error e => Except.error e
        | Except.ok (next, true) => d.skipWhileDownLoop pred next true
        | Except.ok (_, false) => Except.ok (point, changed)
      else
        match hch : pageText.glyphChar (point.glyphIndex - 1) with
        | some ch =>
            if pred ch then
              match hdec : d.decrementPoint point with
              | Except.error e => Except.error e
              | Except.ok (next, true) => d.skipWhileDownLoop pred next true
              | Except.ok (_, false) => Except.ok (point, changed)
            else Except.ok (point, changed)
        | none => Except.ok (point, changed)
termination_by d.cappedPos point
decreasing_by
· -- glyph index 0: decrement crosses to the previous page
  simp only [Doc.decrementPoint] at hdec
  split at hdec
  · rename_i hpos
    omega
  · split at hdec
    · simp at hdec
    · rename_i hpos hpg
      split at hdec
      · exact absurd hdec (by simp)
      · rename_i t heq
        simp only [Except.ok.injEq, Prod.mk.injEq] at hdec
        obtain ⟨hn, -⟩ := hdec
        subst hn
        simp only [Doc.pageTextEntry] at heq
        split at heq
        · exact absurd heq (by simp)
        · have hgca : d.glyphCountAt (point.page - 1) = t.glyphCount := by
            simp [Doc.glyphCountAt, heq]
          have hsplit : pagePrefixSum d point.page
              = pagePrefixSum d (point.page - 1) + (d.glyphCountAt (point.page - 1) + 1) := by
            have hpp : point.page = (point.page - 1) + 1 := by omega
            rw [hpp]
            simp [pagePrefixSum]
          simp only [Doc.cappedPos, hgca]
          omega
· -- interior glyph: decrement stays on the page
  simp only [Doc.pageTextEntry] at hpt
  split at hpt
  · exact absurd hpt (by simp)
  · rename_i hplt
    have hgca : d.glyphCountAt point.page = pageText.glyphCount := by
      simp [Doc.glyphCountAt, hpt]
    have hlen : point.glyphIndex - 1 < pageText.glyphs.length := by
      simp only [PageText.glyphChar] at hch
      split at hch
      · exact absurd hch (by simp)
      · rename_i g heqg
        rcases List.get?_eq_some.mp heqg with ⟨hprf, -⟩
        exact hprf
    simp only [Doc.decrementPoint] at hdec
    split at hdec
    · simp only [Except.ok.injEq, Prod.mk.injEq] at hdec
      obtain ⟨hn, -⟩ := hdec
      subst hn
      simp only [Doc.cappedPos, hgca, PageText.glyphCount] at *
      omega
    · split at hdec
      · simp at hdec
      · split at hdec
        · exact absurd hdec (by simp)
        · rename_i hpos hpg t heq
          omega

/-- `DocumentInstance::skip_while` (`changed` starts false on every call). -/
def Doc.skipWhile (d : Doc) (pred : Char → Bool) (point : SelectionPoint) (forward : Bool) :
    Except Err (SelectionPoint × Bool) :=
  if forward then d.skipWhileUpLoop pred point false
  else d.skipWhileDownLoop pred point false

/-- The step loop of `move_word`: skip non-word characters, then word characters. -/
def Doc.moveWordSteps (d : Doc) (forward : Bool) :
    SelectionPoint → Nat → Bool → Except Err (SelectionPoint × Bool)
  | point, 0, moved => Except.ok (point, moved)
  | point, n + 1, moved =>
      match d.skipWhile (fun ch => !isWordChar ch) point forward with
      | Except.error e => Except.error e
      | Except.ok (p1, m1) =>
          match d.skipWhile (fun ch => isWordChar ch) p1 forward with
          | Except.error e => Except.error e
          | Except.ok (p2, m2) => d.moveWordSteps forward p2 n (moved || m1 || m2)

/-- `DocumentInstance::move_word`. -/
def Doc.moveWord (d : Doc) (point : SelectionPoint) (count : Nat) (forward : Bool) :
    Except Err (SelectionPoint × Bool) :=
  d.moveWordSteps forward point (max count 1) false

/-- `DocumentInstance::move_visual_cursor`.  Note the Rust `&mut self` semantics: when a
motion fails after `ensure_visual_cursor` already moved the cursor, the document keeps
that partial mutation, so the document is returned alongside the error. -/
def Doc.moveVisualCursor (d : Doc) (motion : SelectionMotion) (count : Nat) :
    Doc × Except Err Bool :=
  if d.pageCount = 0 then (d, Except.ok false)
  else
    match d.ensureVisualCursor with
    | Except.error e => (d, Except.error e)
    | Except.ok (d1, _) =>
        match d1.visualCursor with
        | none => (d1, Except.ok false)
        | some cursor =>
            let steps := max count 1
            let result : Except Err (SelectionPoint × Bool) :=
              match motion with
              | SelectionMotion.left => d1.adjustPoint cursor (-(steps : Int))
              | SelectionMotion.right => d1.adjustPoint cursor (steps : Int)
              | SelectionMotion.wordForward => d1.moveWord cursor steps true
              | SelectionMotion.wordBackward => d1.moveWord cursor steps false
              | SelectionMotion.lineStart => d1.moveToLineBoundary cursor true
              | SelectionMotion.lineEnd => d1.moveToLineBoundary cursor false
              | SelectionMotion.documentStart =>
                  let targetPage :=
                    if steps > 1 then min (steps - 1) (d1.pageCount - 1) else 0
                  if cursor.page ≠ targetPage ∨ cursor.glyphIndex ≠ 0 then
                    Except.ok (⟨targetPage, 0⟩, true)
                  else Except.ok (cursor, false)
              | SelectionMotion.documentEnd =>
                  let targetPage := d1.pageCount - 1
                  let pageChanged := cursor.page ≠ targetPage
                  match d1.pageTextEntry targetPage with
                  | Except.error e => Except.error e
                  | Except.ok pageText =>
                      let target := pageText.glyphCount
                      if pageChanged ∨ cursor.glyphIndex ≠ target then
                        Except.ok (⟨targetPage, target⟩, true)
                      else Except.ok (⟨targetPage, cursor.glyphIndex⟩, false)
              | SelectionMotion.pageForward => d1.movePages cursor (steps : Int)
              | SelectionMotion.pageBackward => d1.movePages cursor (-(steps : Int))
              | SelectionMotion.down => d1.moveLines cursor (steps : Int)
              | SelectionMotion.up => d1.moveLines cursor (-(steps : Int))
            match result with
            | Except.error e => (d1, Except.error e)
            | Except.ok (cursor1, changed) =>
                if changed then
                  let d2 :=
                    ({ d1 with visualCursor := some cursor1 } : Doc).updateColumnHint cursor1
                  let d3 :=
                    if d2.currentPage ≠ cursor1.page then
                      { d2 with currentPage := cursor1.page, viewport := d2.viewport.reset }
                    else d2
                  let d4 :=
                    match d3.selectionState with
                    | some st =>
                        { d3 with selectionState := some { st with head := cursor1 } }
                    | none => d3
                  (d4, Except.ok true)
                else (d1, Except.ok false)

/-- `DocumentInstance::remember_selection`. -/
def Doc.rememberSelection (d : Doc) : Doc :=
  match d.selectionState with
  | some s => { d with lastSelection := some s.normalized }
  | none => d

/-- `DocumentInstance::clear_selection_state`. -/
def Doc.clearSelectionState (d : Doc) (remember : Bool) : Doc × Bool :=
  match d.selectionState with
  | some _ =>
      let d1 := if remember then d.rememberSelection else d
      match d1.selectionState with
      | some st =>
          (({ d1 with selectionState := none, visualCursor := some st.head } : Doc
            ).updateColumnHint st.head, true)
      | none => (d1, true)
  | none => (d, false)

/-- `DocumentInstance::leave_visual_mode`. -/
def Doc.leaveVisualMode (d : Doc) (remember : Bool) : Doc × Bool :=
  let r := d.clearSelectionState remember
  match r.1.visualCursor with
  | some _ => ({ r.1 with visualCursor := none }, true)
  | none => (r.1, r.2)

/-- `DocumentInstance::restore_last_selection`. -/
def Doc.restoreLastSelection (d : Doc) : Except Err (Doc × Bool) :=
  match d.lastSelection with
  | none => Except.ok (d, false)
  | some snapshot =>
      match d.clampPoint snapshot.startPt with
      | Except.error e => Except.error e
      | Except.ok startPt =>
          match d.clampPoint snapshot.endPt with
          | Except.error e => Except.error e
          | Except.ok endPt =>
              let sel : SelectionState := ⟨startPt, endPt⟩
              let d1 : Doc := { d with selectionState := some sel, visualCursor := some endPt }
              Except.ok (d1.updateColumnHint endPt, true)

/-- `DocumentInstance::swap_visual_cursor`. -/
def Doc.swapVisualCursor (d : Doc) : Doc × Bool :=
  match d.selectionState with
  | some st =>
      let st1 : SelectionState := ⟨st.head, st.anchor⟩
      ((({ d with selectionState := some st1, visualCursor := some st1.head } : Doc
        ).updateColumnHint st1.head), true)
  | none => (d, false)

/-- The page loop of `extract_selection_text`. -/
def Doc.extractLoop (d : Doc) (startPt endPt : SelectionPoint) (page : Nat) (buffer : Str) :
    Except Err Str :=
  if hle : page ≤ endPt.page then
    match d.pageTextEntry page with
    | Except.error e => Except.error e
    | Except.ok pageText =>
        let glyphCount := pageText.glyphCount
        let startIdx := if page = startPt.page then min startPt.glyphIndex glyphCount else 0
        let endIdx := if page = endPt.page then min endPt.glyphIndex glyphCount else glyphCount
        let buffer1 :=
          if startIdx < endIdx then
            let startOffset := pageText.boundaryOffset startIdx
            let endOffset := pageText.boundaryOffset endIdx
            if startOffset < endOffset ∧ endOffset ≤ pageText.text.length then
              (if buffer.isEmpty then buffer else buffer ++ ['\n'])
                ++ ((pageText.text.drop startOffset).take (endOffset - startOffset))
            else buffer
          else buffer
        if hend : page = endPt.page then Except.ok buffer1
        else d.extractLoop startPt endPt (page + 1) buffer1
  else Except.ok buffer
termination_by endPt.page + 1 - page
decreasing_by omega

/-- `DocumentInstance::extract_selection_text`. -/
def Doc.extractSelectionText (d : Doc) (snapshot : SelectionSnapshot) : Except Err Str :=
  d.extractLoop snapshot.startPt snapshot.endPt snapshot.startPt.page []

/-- `DocumentInstance::selection_text`. -/
def Doc.selectionText (d : Doc) : Option Str :=
  match d.selectionState with
  | none => none
  | some sel =>
      match d.extractSelectionText sel.normalized with
      | Except.ok s => some s
      | Except.error _ => none

/-! ### Mark helpers (`lib.rs` lines 1298-1315) -/

def Doc.addMark (d : Doc) (mark : Char) (page : Nat) : Doc :=
  { d with marks := alistInsert d.marks mark page }

def Doc.getPageFromMark (d : Doc) (mark : Char) : Option Nat := alistGet d.marks mark

def Doc.addNamedMark (d : Doc) (name : Str) (page : Nat) : Doc :=
  { d with namedMarks := alistInsert d.namedMarks name page }

def Doc.namedMarkPage (d : Doc) (name : Str) : Option Nat := alistGet d.namedMarks name

/-! ### Session command application (`lib.rs` lines 2149-2494)

`OpenDocument` and `CloseDocument` involve the external document provider and state
store and are not modelled; `Session::apply` bails out on `OpenDocument` anyway. -/

/-- Write back the mutably borrowed active document and append outbound events. -/
def Session.updateActive (s : Session) (doc : Doc) (newEvents : List SessionEvent) :
    Session :=
  { s with documents := s.documents.set s.active doc, events := s.events ++ newEvents }

def Session.apply (s : Session) (command : Command) : Session × Except Err Unit :=
  match command with
  | Command.putMark key =>
      match s.documents.get? s.active with
      | none => (s, Except.ok ())
      | some doc =>
          let currPage := doc.currentPage
          (s.updateActive (doc.addMark key currPage) [], Except.ok ())
  | Command.gotoMark key =>
      match s.documents.get? s.active with
      | none => (s, Except.ok ())
      | some doc =>
          match doc.getPageFromMark key with
          | none => (s, Except.ok ())
          | some page =>
              let previous := doc.currentPosition
              let next := min page (doc.pageCount - 1)
              if next ≠ doc.currentPage then
                let doc1 : Doc :=
                  { doc with currentPage := next, viewport := doc.viewport.reset }
                (s.updateActive (doc1.recordJumpFrom previous)
                    [SessionEvent.redrawNeeded doc.docId], Except.ok ())
              else (s, Except.ok ())
  | Command.saveNamedMark name =>
      match s.documents.get? s.active with
      | none => (s, Except.ok ())
      | some doc =>
          let currPage := doc.currentPage
          (s.updateActive (doc.addNamedMark name currPage) [], Except.ok ())
  | Command.gotoNamedMark name =>
      match s.documents.get? s.active with
      | none => (s, Except.ok ())
      | some doc =>
          match doc.namedMarkPage name with
          | none => (s, Except.ok ())
          | some page =>
              let previous := doc.currentPosition
              let next := min page (doc.pageCount - 1)
              if next ≠ doc.currentPage then
                let doc1 : Doc :=
                  { doc with currentPage := next, viewport := doc.viewport.reset }
                (s.updateActive (doc1.recordJumpFrom previous)
                    [SessionEvent.redrawNeeded doc.docId], Except.ok ())
              else (s, Except.ok ())
  | Command.search query =>
      match s.documents.get? s.active with
      | none => (s, Except.ok ())
      | some doc =>
          match doc.performSearch query with
          | Except.error e => (s, Except.error e)
          | Except.ok (doc1, _) =>
              (s.updateActive doc1 [SessionEvent.redrawNeeded doc.docId], Except.ok ())
  | Command.searchNext count =>
      match s.documents.get? s.active with
      | none => (s, Except.ok ())
      | some doc =>
          let r := doc.nextSearchMatch (max count 1)
          match r.1 with
          | some _ =>
              (s.updateActive r.2 [SessionEvent.redrawNeeded doc.docId], Except.ok ())
          | none => (s.updateActive r.2 [], Except.ok ())
  | Command.searchPrev count =>
      match s.documents.get? s.active with
      | none => (s, Except.ok ())
      | some doc =>
          let r := doc.previousSearchMatch (max count 1)
          match r.1 with
          | some _ =>
              (s.updateActive r.2 [SessionEvent.redrawNeeded doc.docId], Except.ok ())
          | none => (s.updateActive r.2 [], Except.ok ())
  | Command.enterVisualMode =>
      match s.documents.get? s.active with
      | none => (s, Except.ok ())
      | some doc =>
          match doc.ensureVisualCursor with
          | Except.error e => (s, Except.error e)
          | Except.ok (doc1, true) =>
              (s.updateActive doc1 [SessionEvent.redrawNeeded doc.docId], Except.ok ())
          | Except.ok (doc1, false) => (s.updateActive doc1 [], Except.ok ())
  | Command.startSelection =>
      match s.documents.get? s.active with
      | none => (s, Except.ok ())
      | some doc =>
          match doc.startSelection with
          | Except.error e => (s, Except.error e)
          | Except.ok (doc1, true) =>
              (s.updateActive doc1 [SessionEvent.redrawNeeded doc.docId], Except.ok ())
          | Except.ok (doc1, false) => (s.updateActive doc1 [], Except.ok ())
  | Command.moveVisualCursor motion count =>
      match s.documents.get? s.active with
      | none => (s, Except.ok ())
      | some doc =>
          let r := doc.moveVisualCursor motion (max count 1)
          match r.2 with
          | Except.error e => (s.updateActive r.1 [], Except.error e)
          | Except.ok true =>
              (s.updateActive r.1 [SessionEvent.redrawNeeded doc.docId], Except.ok ())
          | Except.ok false => (s.updateActive r.1 [], Except.ok ())
  | Command.clearSelection =>
      match s.documents.get? s.active with
      | none => (s, Except.ok ())
      | some doc =>
          let r := doc.clearSelectionState true
          if r.2 then
            (s.updateActive r.1 [SessionEvent.redrawNeeded doc.docId], Except.ok ())
          else (s.updateActive r.1 [], Except.ok ())
  | Command.leaveVisualMode =>
      match s.documents.get? s.active with
      | none => (s, Except.ok ())
      | some doc =>
          let r := doc.leaveVisualMode true
          if r.2 then
            (s.updateActive r.1 [SessionEvent.redrawNeeded doc.docId], Except.ok ())
          else (s.updateActive r.1 [], Except.ok ())
  | Command.restoreSelection =>
      match s.documents.get? s.active with
      | none => (s, Except.ok ())
      | some doc =>
          match doc.restoreLastSelection with
          | Except.error e => (s, Except.error e)
          | Except.ok (doc1, true) =>
              (s.updateActive doc1 [SessionEvent.redrawNeeded doc.docId], Except.ok ())
          | Except.ok (doc1, false) => (s.updateActive doc1 [], Except.ok ())
  | Command.swapVisualCursor =>
      match s.documents.get? s.active with
      | none => (s, Except.ok ())
      | some doc =>
          let r := doc.swapVisualCursor
          if r.2 then
            (s.updateActive r.1 [SessionEvent.redrawNeeded doc.docId], Except.ok ())
          else (s.updateActive r.1 [], Except.ok ())
  | Command.enterLinkMode =>
      match s.documents.get? s.active with
      | none => (s, Except.ok ())
      | some doc =>
          match doc.startLinkMode with
          | Except.error e => (s, Except.error e)
          | Except.ok doc1 =>
              (s.updateActive doc1 [SessionEvent.redrawNeeded doc.docId], Except.ok ())
  | Command.leaveLinkMode =>
      match s.documents.get? s.active with
      | none => (s, Except.ok ())
      | some doc =>
          (s.updateActive doc.clearLinkState [SessionEvent.redrawNeeded doc.docId],
            Except.ok ())
  | Command.linkNext count =>
      match s.documents.get? s.active with
      | none => (s, Except.ok ())
      | some doc =>
          let r := doc.nextLink (max count 1)
          match r.1 with
          | some _ =>
              (s.updateActive r.2 [SessionEvent.redrawNeeded doc.docId], Except.ok ())
          | none => (s.updateActive r.2 [], Except.ok ())
  | Command.linkPrev count =>
      match s.documents.get? s.active with
      | none => (s, Except.ok ())
      | some doc =>
          let r := doc.previousLink (max count 1)
          match r.1 with
          | some _ =>
              (s.updateActive r.2 [SessionEvent.redrawNeeded doc.docId], Except.ok ())
          | none => (s.updateActive r.2 [], Except.ok ())
  | Command.activateLink =>
      match s.documents.get? s.active with
      | none => (s, Except.ok ())
      | some doc =>
          let r := doc.activateLink
          match r.1 with
          | LinkFollowResult.navigated _ =>
              (s.updateActive r.2 [SessionEvent.redrawNeeded doc.docId], Except.ok ())
          | LinkFollowResult.external target =>
              (s.updateActive r.2
                  [SessionEvent.redrawNeeded doc.docId,
                    SessionEvent.followExternalLink target], Except.ok ())
          | LinkFollowResult.unsupported => (s.updateActive r.2 [], Except.ok ())
          | LinkFollowResult.noActiveLink => (s.updateActive r.2 [], Except.ok ())
  | Command.nextPage count =>
      match s.documents.get? s.active with
      | none => (s, Except.ok ())
      | some doc =>
          let previous := doc.currentPosition
          let next := min (doc.currentPage + count) (doc.pageCount - 1)
          if next ≠ doc.currentPage then
            let diff := max previous.page next - min previous.page next
            let doc1 : Doc := { doc with currentPage := next, viewport := doc.viewport.reset }
            let doc2 := if diff > 1 then doc1.recordJumpFrom previous else doc1.syncJumpPosition
            (s.updateActive doc2 [SessionEvent.redrawNeeded doc.docId], Except.ok ())
          else (s, Except.ok ())
  | Command.prevPage count =>
      match s.documents.get? s.active with
      | none => (s, Except.ok ())
      | some doc =>
          let previous := doc.currentPosition
          let next := doc.currentPage - count
          if next ≠ doc.currentPage then
            let diff := max previous.page next - min previous.page next
            let doc1 : Doc := { doc with currentPage := next, viewport := doc.viewport.reset }
            let doc2 := if diff > 1 then doc1.recordJumpFrom previous else doc1.syncJumpPosition
            (s.updateActive doc2 [SessionEvent.redrawNeeded doc.docId], Except.ok ())
          else (s, Except.ok ())
  | Command.gotoPage page =>
      match s.documents.get? s.active with
      | none => (s, Except.ok ())
      | some doc =>
          let previous := doc.currentPosition
          let next := min page (doc.pageCount - 1)
          if next ≠ doc.currentPage then
            let doc1 : Doc := { doc with currentPage := next, viewport := doc.viewport.reset }
            (s.updateActive (doc1.recordJumpFrom previous)
                [SessionEvent.redrawNeeded doc.docId], Except.ok ())
          else (s, Except.ok ())
  | Command.scaleBy factor =>
      match s.documents.get? s.active with
      | none => (s, Except.ok ())
      | some doc =>
          let scale := clampQ (doc.scale * factor) (1 / 4) 4
          if |doc.scale - scale| > EPS then
            let doc1 : Doc := { doc with scale := scale }
            let doc2 : Doc :=
              if scale ≤ 1 + EPS then { doc1 with viewport := doc1.viewport.reset }
              else { doc1 with viewport := doc1.viewport.clampBox }
            (s.updateActive doc2.syncJumpPosition [SessionEvent.redrawNeeded doc.docId],
              Except.ok ())
          else (s, Except.ok ())
  | Command.resetScale =>
      match s.documents.get? s.active with
      | none => (s, Except.ok ())
      | some doc =>
          let prevScale := doc.scale
          let viewportChanged := |doc.viewport.x| > EPS ∨ |doc.viewport.y| > EPS
          let doc1 : Doc := { doc with scale := 1, viewport := doc.viewport.reset }
          let doc2 := doc1.syncJumpPosition
          if |prevScale - 1| > EPS ∨ viewportChanged then
            (s.updateActive doc2 [SessionEvent.redrawNeeded doc.docId], Except.ok ())
          else (s.updateActive doc2 [], Except.ok ())
  | Command.adjustViewport deltaX deltaY =>
      match s.documents.get? s.active with
      | none => (s, Except.ok ())
      | some doc =>
          let r := doc.viewport.adjust deltaX deltaY
          if r.2 then
            let doc1 : Doc := { doc with viewport := r.1.clampBox }
            (s.updateActive doc1.syncJumpPosition [SessionEvent.redrawNeeded doc.docId],
              Except.ok ())
          else (s, Except.ok ())
  | Command.toggleDarkMode =>
      match s.documents.get? s.active with
      | none => (s, Except.ok ())
      | some doc =>
          (s.updateActive { doc with darkMode := !doc.darkMode }
              [SessionEvent.redrawNeeded doc.docId], Except.ok ())
  | Command.switchDocument index =>
      if h : index < s.documents.length then
        let id := (s.documents.get ⟨index, h⟩).docId
        let s1 : Session :=
          { s with active := index
                   events := s.events ++ [SessionEvent.activeDocumentChanged id] }
        (s1, Except.ok ())
      else (s, Except.ok ())
  | Command.jumpBackward =>
      match s.documents.get? s.active with
      | none => (s, Except.ok ())
      | some doc =>
          let r := doc.popJumpBackward
          match r.1 with
          | none => (s.updateActive r.2 [], Except.ok ())
          | some position =>
              let r2 := r.2.applyDocumentPosition position
              if r2.2 then
                (s.updateActive r2.1 [SessionEvent.redrawNeeded doc.docId], Except.ok ())
              else (s.updateActive r2.1 [], Except.ok ())
  | Command.jumpForward =>
      match s.documents.get? s.active with
      | none => (s, Except.ok ())
      | some doc =>
          let r := doc.popJumpForward
          match r.1 with
          | none => (s.updateActive r.2 [], Except.ok ())
          | some position =>
              let r2 := r.2.applyDocumentPosition position
              if r2.2 then
                (s.updateActive r2.1 [SessionEvent.redrawNeeded doc.docId], Except.ok ())
              else (s.updateActive r2.1 [], Except.ok ())

/-- Fold `Session::apply` over a command list, keeping only the state. -/
def Session.applyAll (s : Session) (commands : List Command) : Session :=
  commands.foldl (fun acc c => (acc.apply c).1) s

/-- The commands the frame claim ranges over: every command routed to the active
document only (`SwitchDocument` changes the active index instead). -/
def Command.isPerDocument : Command → Bool
  | Command.switchDocument _ => false
  | _ => true

/-! ### Invariants named by the specification -/

/-- The persisted-state invariant: scale in `[0.25, 4]`, viewport in `[0,1] × [0,1]`. -/
def ScaleViewportInv (d : Doc) : Prop :=
  (1 / 4 ≤ d.scale ∧ d.scale ≤ 4) ∧
    (0 ≤ d.viewport.x ∧ d.viewport.x ≤ 1 ∧ 0 ≤ d.viewport.y ∧ d.viewport.y ≤ 1)

instance : DecidablePred ScaleViewportInv := fun d => by
  unfold ScaleViewportInv
  infer_instance

/-- The claimed zoom-fit property: at scale at most 1 the viewport sits at the origin. -/
def ZoomFit (d : Doc) : Prop := d.scale ≤ 1 → d.viewport = ⟨0, 0⟩

instance : DecidablePred ZoomFit := fun d => by
  unfold ZoomFit
  infer_instance

/-! ### Concrete sample data used by the witnesses -/

/-- A backend with no capabilities at all. -/
def emptyBackend : DocumentBackendModel :=
  ⟨fun _ => Except.error ['n'], fun _ _ => Except.error ['n'], fun _ => Except.error ['n']⟩

/-- A freshly opened single-page document in the default persisted state. -/
def baseDoc : Doc :=
  { docId := 0
    pageCount := 1
    backend := emptyBackend
    currentPage := 0
    scale := 1
    darkMode := false
    viewport := ⟨0, 0⟩
    marks := []
    namedMarks := []
    jumpHistory := JumpHistory.empty
    searchState := none
    linkState := none
    selectionState := none
    visualCursor := none
    lastSelection := none
    visualColumnHint := 1 / 2 }

def samplePosA : DocumentPosition := ⟨0, 1, ⟨0, 0⟩⟩

def samplePosB : DocumentPosition := ⟨7, 1, ⟨0, 0⟩⟩

/-- A unit rectangle, valid as a link/highlight region. -/
def unitRect : NormalizedRect := ⟨0, 0, 1, 1⟩

/-- A backend whose page 0 carries one valid link and whose page 1 fails `page_links`. -/
def linkErrBackend : DocumentBackendModel :=
  { pageText := fun _ => Except.error ['n']
    searchPage := fun _ _ => Except.error ['n']
    pageLinks := fun p =>
      if p = 0 then Except.ok [⟨[unitRect], LinkAction.goTo 0⟩] else Except.error ['b'] }

def linkErrDoc : Doc := { baseDoc with pageCount := 2, backend := linkErrBackend }

/-- A two-page document used to probe search-result bookkeeping. -/
def twoPageDoc : Doc := { baseDoc with pageCount := 2 }

def sampleMatches : List SearchMatch := [⟨0, []⟩, ⟨1, []⟩]

/-- A two-page document with an active search on `sampleMatches`, current index 0. -/
def searchDoc : Doc :=
  { twoPageDoc with searchState := some ⟨['q'], sampleMatches, some 0⟩ }

def sampleLinks : List LinkEntry :=
  [⟨0, [unitRect], LinkAction.goTo 0⟩, ⟨2, [unitRect], LinkAction.goTo 0⟩]

/-- A three-page document on page 1 whose link mode holds `sampleLinks`, unseeded. -/
def linkedDoc : Doc :=
  { baseDoc with pageCount := 3, currentPage := 1, linkState := some ⟨sampleLinks, none⟩ }

/-- Twelve cache puts with pairwise distinct keys (pages 0..11). -/
def samplePuts : List (CacheKey × RenderImage) :=
  (List.range 12).map (fun i => (⟨i, 1000, false⟩, ⟨0, 0, []⟩))

end Termpdf

namespace Termpdf

/-! ## Helper lemmas -/

theorem list_set_of_get? {α : Type} :
    ∀ (l : List α) (i : Nat) (a : α), l.get? i = some a → l.set i a = l
  | [], i, a, h => by simp at h
  | x :: xs, 0, a, h => by
      have hx : x = a := by simpa using h
      subst hx
      rfl
  | x :: xs, i + 1, a, h => by
      have h2 : xs.get? i = some a := by simpa using h
      show x :: xs.set i a = x :: xs
      rw [list_set_of_get? xs i a h2]

theorem jumpPopLoop_ne {cur t : DocumentPosition} :
    ∀ {l rest : List DocumentPosition}, jumpPopLoop cur l = some (t, rest) → t ≠ cur := by
  intro l
  induction l with
  | nil => intro rest h; simp [jumpPopLoop] at h
  | cons x xs ih =>
      intro rest h
      by_cases hx : x = cur
      · rw [jumpPopLoop, if_pos hx] at h
        exact ih h
      · rw [jumpPopLoop, if_neg hx] at h
        simp at h
        obtain ⟨h1, -⟩ := h
        subst h1
        exact hx

theorem pushStack_head (stack : List DocumentPosition) (pos : DocumentPosition) :
    (pushStack stack pos).head? = some pos := by
  unfold pushStack
  split
  · assumption
  · rfl

/-- C5: after a successful `jump_backward` from `current`, an immediate `jump_forward`
from the returned target yields `current` again, for every jump-history state. -/
theorem jump_backward_forward_restores (h : JumpHistory) (cur target : DocumentPosition)
    (hb : (h.jumpBackward cur).1 = some target) :
    (((h.jumpBackward cur).2).jumpForward target).1 = some cur := by
  cases hpop : jumpPopLoop cur h.backStack with
  | none =>
      have hnone : (h.jumpBackward cur).1 = none := by
        unfold JumpHistory.jumpBackward
        rw [hpop]
      rw [hnone] at hb
      simp at hb
  | some pr =>
      obtain ⟨t, rest⟩ := pr
      have ht : t = target := by
        unfold JumpHistory.jumpBackward at hb
        rw [hpop] at hb
        simpa using hb
      have hsnd : (h.jumpBackward cur).2
          = ⟨rest, pushStack h.forwardStack cur, some t⟩ := by
        unfold JumpHistory.jumpBackward
        rw [hpop]
      have hne : cur ≠ target := by
        have h1 := jumpPopLoop_ne hpop
        rw [ht] at h1
        exact Ne.symm h1
      rw [hsnd]
      have hhead := pushStack_head h.forwardStack cur
      cases hps : pushStack h.forwardStack cur with
      | nil => rw [hps] at hhead; simp at hhead
      | cons a as =>
          rw [hps] at hhead
          have ha : a = cur := by simpa using hhead
          subst ha
          simp [JumpHistory.jumpForward, hps, jumpPopLoop, hne]

theorem jump_backward_forward_restores_witness :
    ((JumpHistory.jumpBackward ⟨[samplePosB], [], none⟩ samplePosA).1 = some samplePosB) ∧
      (((JumpHistory.jumpBackward ⟨[samplePosB], [], none⟩ samplePosA).2.jumpForward
          samplePosB).1 = some samplePosA) :=
  ⟨by decide,
    jump_backward_forward_restores ⟨[samplePosB], [], none⟩ samplePosA samplePosB (by decide)⟩

/-- C9: applying `GotoMark` with a key absent from the active document's marks returns
`Ok` and leaves the whole session (documents, active index, events) unchanged. -/
theorem gotoMark_unknown_noop (s : Session) (key : Char) (doc : Doc)
    (hdoc : s.documents.get? s.active = some doc)
    (hkey : doc.getPageFromMark key = none) :
    s.apply (Command.gotoMark key) = (s, Except.ok ()) := by
  have hdoc2 : s.documents[s.active]? = some doc := by
    rw [← List.get?_eq_getElem?]
    exact hdoc
  simp [Session.apply, hdoc2, hkey]

theorem gotoMark_unknown_noop_witness :
    Session.apply ⟨[baseDoc], 0, []⟩ (Command.gotoMark 'a')
      = (⟨[baseDoc], 0, []⟩, Except.ok ()) :=
  gotoMark_unknown_noop ⟨[baseDoc], 0, []⟩ 'a' baseDoc rfl rfl

theorem comparePoints_gt_iff (a b : SelectionPoint) :
    comparePoints a b = Ordering.gt ↔
      (b.page < a.page ∨ (a.page = b.page ∧ b.glyphIndex < a.glyphIndex)) := by
  unfold comparePoints
  rcases Nat.lt_trichotomy a.page b.page with h | h | h
  · rw [Nat.compare_eq_lt.mpr h]
    simp only
    constructor
    · intro hc; exact absurd hc (by simp)
    · intro hc; omega
  · rw [Nat.compare_eq_eq.mpr h]
    simp only
    rw [Nat.compare_eq_gt]
    omega
  · rw [Nat.compare_eq_gt.mpr h]
    simp only
    constructor
    · intro _; exact Or.inl h
    · intro _; trivial

theorem normalized_swap (a b : SelectionPoint) :
    SelectionState.normalized ⟨a, b⟩ = SelectionState.normalized ⟨b, a⟩ := by
  unfold SelectionState.normalized
  simp only
  by_cases hab : comparePoints a b = Ordering.gt <;>
    by_cases hba : comparePoints b a = Ordering.gt <;>
      simp only [hab, hba, if_pos, if_neg, reduceCtorEq] <;>
        rw [comparePoints_gt_iff] at hab hba
  · -- both greater: impossible
    omega
  · simp [hab]
  · simp [hba]
  · -- neither greater: the points are equal
    have hpage : a.page = b.page := by omega
    have hglyph : a.glyphIndex = b.glyphIndex := by omega
    have : a = b := by
      cases a; cases b
      simp_all
    simp [this, hab, hba]

/-- Unfolding helper for the well-founded `extractLoop`: documents that agree on
`pageTextEntry` extract the same text. -/
theorem extractLoop_congr (dA dB : Doc) (startPt endPt : SelectionPoint)
    (hpt : ∀ p, dA.pageTextEntry p = dB.pageTextEntry p) :
    ∀ fuel page buffer, endPt.page + 1 - page ≤ fuel →
      dA.extractLoop startPt endPt page buffer = dB.extractLoop startPt endPt page buffer := by
  intro fuel
  induction fuel with
  | zero =>
      intro page buffer hf
      unfold Doc.extractLoop
      have hgt : ¬page ≤ endPt.page := by omega
      rw [dif_neg hgt, dif_neg hgt]
  | succ n ih =>
      intro page buffer hf
      unfold Doc.extractLoop
      by_cases hle : page ≤ endPt.page
      · rw [dif_pos hle, dif_pos hle, hpt page]
        cases dB.pageTextEntry page with
        | error e => rfl
        | ok pageText =>
            simp only
            by_cases hend : page = endPt.page
            · rw [dif_pos hend, dif_pos hend]
            · rw [dif_neg hend, dif_neg hend]
              exact ih (page + 1) _ (by omega)
      · rw [dif_neg hle, dif_neg hle]

theorem extractSelectionText_congr (dA dB : Doc)
    (hpt : ∀ p, dA.pageTextEntry p = dB.pageTextEntry p) (snap : SelectionSnapshot) :
    dA.extractSelectionText snap = dB.extractSelectionText snap :=
  extractLoop_congr dA dB snap.startPt snap.endPt hpt _ _ _ (Nat.le_refl _)

/-- C6: the text extracted from a selection is invariant under exchanging anchor and
head, over every page-text assignment; consequently `swap_visual_cursor` never changes
the selection text. -/
theorem extract_selection_swap_invariant (d : Doc) (a b : SelectionPoint) :
    d.extractSelectionText (SelectionState.normalized ⟨a, b⟩)
        = d.extractSelectionText (SelectionState.normalized ⟨b, a⟩) ∧
      ∀ d2 : Doc, ((d2.swapVisualCursor).1).selectionText = d2.selectionText := by
  constructor
  · rw [normalized_swap]
  · intro d2
    cases hsel : d2.selectionState with
    | none =>
        have hsw : d2.swapVisualCursor = (d2, false) := by
          unfold Doc.swapVisualCursor
          rw [hsel]
        rw [hsw]
    | some st =>
        obtain ⟨anchorPt, headPt⟩ := st
        have h1 : (d2.swapVisualCursor).1.selectionState = some ⟨headPt, anchorPt⟩ := by
          unfold Doc.swapVisualCursor Doc.updateColumnHint
          rw [hsel]
          simp only
          split <;> rfl
        have h2 : ∀ p, (d2.swapVisualCursor).1.pageTextEntry p = d2.pageTextEntry p := by
          intro p
          unfold Doc.swapVisualCursor Doc.updateColumnHint
          rw [hsel]
          simp only
          split <;> rfl
        unfold Doc.selectionText
        rw [h1, hsel]
        simp only
        rw [extractSelectionText_congr (d2.swapVisualCursor).1 d2 h2,
          normalized_swap headPt anchorPt]

/-! ## Scale and viewport invariant (C1) -/

theorem clampQ_lower (x lo hi : ℚ) (h : lo ≤ hi) : lo ≤ clampQ x lo hi := by
  unfold clampQ
  split_ifs <;> linarith

theorem clampQ_upper (x lo hi : ℚ) (h : lo ≤ hi) : clampQ x lo hi ≤ hi := by
  unfold clampQ
  split_ifs <;> linarith

theorem getD_zero_mem {α : Type} (l : List α) (d : α) (h : l ≠ []) : l.getD 0 d ∈ l := by
  cases l with
  | nil => exact absurd rfl h
  | cons x xs => simp [List.getD]

/-- C1 counterexample: from the default state (scale 1, viewport at the origin) a single
`AdjustViewport { delta_x: 0.5, delta_y: 0 }` leaves the scale at 1 but moves the
viewport to `(0.5, 0)`, so "scale ≤ 1 implies viewport = (0,0)" fails after the command. -/
theorem scale_viewport_counterexample :
    ((Session.applyAll ⟨[baseDoc], 0, []⟩
          [Command.adjustViewport (1 / 2) 0]).documents.getD 0 baseDoc).scale = 1 ∧
      ((Session.applyAll ⟨[baseDoc], 0, []⟩
          [Command.adjustViewport (1 / 2) 0]).documents.getD 0 baseDoc).viewport
        = ⟨1 / 2, 0⟩ := by
  have hadj : ViewportOffset.adjust ⟨0, 0⟩ (1 / 2) 0 = (⟨1 / 2, 0⟩, true) := by
    norm_num [ViewportOffset.adjust, clampQ, EPS, abs]
  have hclamp : ViewportOffset.clampBox ⟨1 / 2, 0⟩ = ⟨1 / 2, 0⟩ := by
    norm_num [ViewportOffset.clampBox, clampQ]
  have happ : Session.applyAll ⟨[baseDoc], 0, []⟩ [Command.adjustViewport (1 / 2) 0]
      = (Session.apply ⟨[baseDoc], 0, []⟩ (Command.adjustViewport (1 / 2) 0)).1 := rfl
  rw [happ]
  unfold Session.apply
  have hget : ([baseDoc] : List Doc).get? 0 = some baseDoc := rfl
  rw [hget]
  simp only [show baseDoc.viewport = ⟨0, 0⟩ from rfl, hadj]
  constructor <;>
    simp [Session.updateActive, Doc.syncJumpPosition, baseDoc, List.getD] <;>
      norm_num [ViewportOffset.clampBox, clampQ]

theorem scaleBy_step (s : Session) (f : ℚ)
    (hinv : ∀ d ∈ s.documents, ScaleViewportInv d) :
    ∀ d ∈ ((s.apply (Command.scaleBy f)).1).documents, ScaleViewportInv d := by
  intro d hd
  unfold Session.apply at hd
  cases hget : s.documents.get? s.active with
  | none => rw [hget] at hd; exact hinv d hd
  | some doc =>
      rw [hget] at hd
      simp only at hd
      split at hd
      · unfold Session.updateActive at hd
        simp only at hd
        rcases List.mem_or_eq_of_mem_set hd with hmem | heq
        · exact hinv d hmem
        · subst heq
          unfold ScaleViewportInv
          by_cases hc : clampQ (doc.scale * f) (1 / 4) 4 ≤ 1 + EPS
          · rw [if_pos hc]
            simp only [Doc.syncJumpPosition, ViewportOffset.reset]
            refine ⟨⟨clampQ_lower _ _ _ (by norm_num), clampQ_upper _ _ _ (by norm_num)⟩, ?_⟩
            norm_num
          · rw [if_neg hc]
            simp only [Doc.syncJumpPosition, ViewportOffset.clampBox]
            exact ⟨⟨clampQ_lower _ _ _ (by norm_num), clampQ_upper _ _ _ (by norm_num)⟩,
              clampQ_lower _ _ _ (by norm_num), clampQ_upper _ _ _ (by norm_num),
              clampQ_lower _ _ _ (by norm_num), clampQ_upper _ _ _ (by norm_num)⟩
      · exact hinv d hd

theorem scaleBy_zoomfit_step (s : Session) (f : ℚ)
    (hinv : ∀ d ∈ s.documents, ScaleViewportInv d ∧ ZoomFit d) :
    ∀ d ∈ ((s.apply (Command.scaleBy f)).1).documents, ScaleViewportInv d ∧ ZoomFit d := by
  intro d hd
  refine ⟨scaleBy_step s f (fun d2 hd2 => (hinv d2 hd2).1) d hd, ?_⟩
  unfold Session.apply at hd
  cases hget : s.documents.get? s.active with
  | none => rw [hget] at hd; exact (hinv d hd).2
  | some doc =>
      rw [hget] at hd
      simp only at hd
      split at hd
      · unfold Session.updateActive at hd
        simp only at hd
        rcases List.mem_or_eq_of_mem_set hd with hmem | heq
        · exact (hinv d hmem).2
        · subst heq
          unfold ZoomFit
          by_cases hc : clampQ (doc.scale * f) (1 / 4) 4 ≤ 1 + EPS
          · rw [if_pos hc]
            simp only [Doc.syncJumpPosition, ViewportOffset.reset]
            intro _
            trivial
          · rw [if_neg hc]
            simp only [Doc.syncJumpPosition, ViewportOffset.clampBox]
            intro hle
            exfalso
            have hepsPos : EPS > 0 := by norm_num [EPS]
            exact hc (by linarith)
      · exact (hinv d hd).2

theorem adjustViewport_step (s : Session) (dx dy : ℚ)
    (hinv : ∀ d ∈ s.documents, ScaleViewportInv d) :
    ∀ d ∈ ((s.apply (Command.adjustViewport dx dy)).1).documents, ScaleViewportInv d := by
  intro d hd
  unfold Session.apply at hd
  cases hget : s.documents.get? s.active with
  | none => rw [hget] at hd; exact hinv d hd
  | some doc =>
      rw [hget] at hd
      simp only at hd
      split at hd
      · unfold Session.updateActive at hd
        simp only at hd
        rcases List.mem_or_eq_of_mem_set hd with hmem | heq
        · exact hinv d hmem
        · subst heq
          have hdoc : ScaleViewportInv doc := hinv doc (List.get?_mem hget)
          unfold ScaleViewportInv
          simp only [Doc.syncJumpPosition, ViewportOffset.clampBox]
          exact ⟨hdoc.1, clampQ_lower _ _ _ (by norm_num), clampQ_upper _ _ _ (by norm_num),
            clampQ_lower _ _ _ (by norm_num), clampQ_upper _ _ _ (by norm_num)⟩
      · exact hinv d hd

theorem applyAll_cons (s : Session) (c : Command) (cs : List Command) :
    s.applyAll (c :: cs) = ((s.apply c).1).applyAll cs := rfl

set_option maxHeartbeats 2000000 in
theorem apply_documents_length (s : Session) (c : Command) :
    ((s.apply c).1).documents.length = s.documents.length := by
  cases c <;> simp only [Session.apply] <;> (repeat' split) <;>
    simp [Session.updateActive]

/-- C1 (amended): along any sequence of `ScaleBy` and `AdjustViewport` commands, after
each command every document's scale stays in `[0.25, 4]` and its viewport stays in
`[0,1] × [0,1]`; the stronger "scale ≤ 1 implies viewport = (0,0)" continues to hold
after each command only for sequences of `ScaleBy` commands alone, because
`AdjustViewport` pans the viewport regardless of the current scale. -/
theorem scale_viewport_invariant (s : Session) (cmds : List Command)
    (hcmds : ∀ c ∈ cmds,
      (∃ f, c = Command.scaleBy f) ∨ ∃ dx dy, c = Command.adjustViewport dx dy)
    (hinv : ∀ d ∈ s.documents, ScaleViewportInv d) :
    (∀ i, ∀ d ∈ (s.applyAll (cmds.take i)).documents, ScaleViewportInv d) ∧
      ((∀ c ∈ cmds, ∃ f, c = Command.scaleBy f) → (∀ d ∈ s.documents, ZoomFit d) →
        ∀ i, ∀ d ∈ (s.applyAll (cmds.take i)).documents, ScaleViewportInv d ∧ ZoomFit d) := by
  have main : ∀ (cs : List Command) (s1 : Session),
      (∀ c ∈ cs, (∃ f, c = Command.scaleBy f) ∨ ∃ dx dy, c = Command.adjustViewport dx dy) →
      (∀ d ∈ s1.documents, ScaleViewportInv d) →
      ∀ d ∈ (s1.applyAll cs).documents, ScaleViewportInv d := by
    intro cs
    induction cs with
    | nil => intro s1 _ hin; exact hin
    | cons c rest ih =>
        intro s1 hsh hin
        rw [applyAll_cons]
        apply ih
        · intro c2 hc2; exact hsh c2 (List.mem_cons_of_mem c hc2)
        · rcases hsh c (List.mem_cons_self c rest) with ⟨f, rfl⟩ | ⟨dx, dy, rfl⟩
          · exact scaleBy_step s1 f hin
          · exact adjustViewport_step s1 dx dy hin
  have main2 : ∀ (cs : List Command) (s1 : Session),
      (∀ c ∈ cs, ∃ f, c = Command.scaleBy f) →
      (∀ d ∈ s1.documents, ScaleViewportInv d ∧ ZoomFit d) →
      ∀ d ∈ (s1.applyAll cs).documents, ScaleViewportInv d ∧ ZoomFit d := by
    intro cs
    induction cs with
    | nil => intro s1 _ hin; exact hin
    | cons c rest ih =>
        intro s1 hsh hin
        rw [applyAll_cons]
        apply ih
        · intro c2 hc2; exact hsh c2 (List.mem_cons_of_mem c hc2)
        · obtain ⟨f, rfl⟩ := hsh c (List.mem_cons_self c rest)
          exact scaleBy_zoomfit_step s1 f hin
  constructor
  · intro i
    exact main (cmds.take i) s
      (fun c hc => hcmds c (List.take_subset i cmds hc)) hinv
  · intro hall hzoom i
    exact main2 (cmds.take i) s
      (fun c hc => hall c (List.take_subset i cmds hc))
      (fun d hd => ⟨hinv d hd, hzoom d hd⟩)

theorem scale_viewport_invariant_witness :
    ScaleViewportInv
      ((Session.applyAll ⟨[baseDoc], 0, []⟩
          ([Command.scaleBy 2, Command.adjustViewport (1 / 2) (1 / 2)].take 2)).documents.getD
        0 baseDoc) := by
  have h := (scale_viewport_invariant ⟨[baseDoc], 0, []⟩
      [Command.scaleBy 2, Command.adjustViewport (1 / 2) (1 / 2)]
      (by
        intro c hc
        simp only [List.mem_cons, List.not_mem_nil, or_false] at hc
        rcases hc with rfl | rfl
        · exact Or.inl ⟨2, rfl⟩
        · exact Or.inr ⟨1 / 2, 1 / 2, rfl⟩)
      (by
        intro d hd
        simp only [List.mem_singleton] at hd
        subst hd
        unfold ScaleViewportInv baseDoc
        norm_num)).1 2
  apply h
  apply getD_zero_mem
  have hsplit : Session.applyAll ⟨[baseDoc], 0, []⟩
      ([Command.scaleBy 2, Command.adjustViewport (1 / 2) (1 / 2)].take 2)
      = (((Session.apply ⟨[baseDoc], 0, []⟩ (Command.scaleBy 2)).1).apply
          (Command.adjustViewport (1 / 2) (1 / 2))).1 := rfl
  have hlen : (Session.applyAll ⟨[baseDoc], 0, []⟩
      ([Command.scaleBy 2, Command.adjustViewport (1 / 2) (1 / 2)].take 2)).documents.length
      = 1 := by
    rw [hsplit, apply_documents_length, apply_documents_length]
    rfl
  intro hnil
  rw [hnil] at hlen
  simp at hlen

/-! ## Link-scan error propagation (C2) -/

/-- C2 counterexample: page 0 of `linkErrDoc` yields a perfectly good link, yet because
page 1's `page_links` fails, `build_link_entries` aborts with that error instead of
returning the page-0 link as a partial result. -/
theorem build_link_entries_abort_counterexample :
    linkErrDoc.buildLinkEntries = Except.error ['b'] ∧
      linkErrDoc.backend.pageLinks 0 = Except.ok [⟨[unitRect], LinkAction.goTo 0⟩] := by
  constructor <;> rfl

theorem buildLinkEntriesAux_error (d : Doc) (p : Nat) (e : Err)
    (herr : d.backend.pageLinks p = Except.error e)
    (hok : ∀ q, q < p → ∃ defs, d.backend.pageLinks q = Except.ok defs) :
    ∀ (remaining start : Nat), start ≤ p → p < start + remaining →
      buildLinkEntriesAux d start remaining = Except.error e := by
  intro remaining
  induction remaining with
  | zero => intro start h1 h2; omega
  | succ n ih =>
      intro start h1 h2
      by_cases hsp : start = p
      · subst hsp
        unfold buildLinkEntriesAux
        rw [herr]
      · obtain ⟨defs, hdefs⟩ := hok start (by omega)
        unfold buildLinkEntriesAux
        rw [hdefs]
        simp only
        rw [ih (start + 1) (by omega) (by omega)]

/-- C2 (amended): a failure of the backend's `page_links` call on any page is *not*
caught: `build_link_entries` propagates the first page's error through `?` and
`start_link_mode` fails with it, building no link list at all (no partial results). -/
theorem build_link_entries_error_propagation (d : Doc) (p : Nat) (e : Err)
    (hp : p < d.pageCount)
    (herr : d.backend.pageLinks p = Except.error e)
    (hok : ∀ q, q < p → ∃ defs, d.backend.pageLinks q = Except.ok defs) :
    d.buildLinkEntries = Except.error e ∧ d.startLinkMode = Except.error e := by
  have hbuild : d.buildLinkEntries = Except.error e := by
    unfold Doc.buildLinkEntries
    exact buildLinkEntriesAux_error d p e herr hok d.pageCount 0 (by omega) (by omega)
  refine ⟨hbuild, ?_⟩
  unfold Doc.startLinkMode
  rw [hbuild]

theorem build_link_entries_error_propagation_witness :
    linkErrDoc.startLinkMode = Except.error ['b'] :=
  (build_link_entries_error_propagation linkErrDoc 1 ['b'] (by norm_num [linkErrDoc, baseDoc])
      rfl
      (by
        intro q hq
        have hq0 : q = 0 := by omega
        subst hq0
        exact ⟨[⟨[unitRect], LinkAction.goTo 0⟩], rfl⟩)).2

/-! ## Initial search index (C7) -/

/-- C7 counterexample: with a 2-page document, matches on pages 0 and 1 and
`start_page = 5`, no match's page is `≥ 5`, so the claim predicts wraparound to
index 0; but the code clamps `start_page` to the last page (1) first and picks
index 1. -/
theorem apply_search_results_counterexample :
    (twoPageDoc.applySearchResults ['q'] sampleMatches 5).1.searchState
        = some ⟨['q'], sampleMatches, some 1⟩ ∧
      sampleMatches.findIdx? (fun m => decide (5 ≤ m.page)) = none := by
  constructor <;> rfl

/-- C7 (amended): `apply_search_results` with an empty query clears the search state;
with a non-empty query it first clamps `start_page` to the last page index, then the
initial current index is the position of the first match whose page is at least the
clamped start page, and index 0 if none qualifies; with an empty match list the
current index is `None`. -/
theorem apply_search_results_spec (d : Doc) (query : Str) (ms : List SearchMatch)
    (sp : Nat) :
    (query = [] →
      (d.applySearchResults query ms sp).1.searchState = none ∧
        (d.applySearchResults query ms sp).2 = false) ∧
    (query ≠ [] → ms = [] →
      (d.applySearchResults query ms sp).1.searchState = some ⟨query, ms, none⟩ ∧
        (d.applySearchResults query ms sp).2 = false) ∧
    (query ≠ [] → ms ≠ [] →
      (d.applySearchResults query ms sp).1.searchState
        = some ⟨query, ms,
            some ((ms.findIdx? (fun m => decide (min sp (d.pageCount - 1) ≤ m.page))).getD
              0)⟩) := by
  refine ⟨?_, ?_, ?_⟩
  · intro hq
    subst hq
    unfold Doc.applySearchResults
    simp [Doc.syncJumpPosition]
  · intro hq hms
    subst hms
    unfold Doc.applySearchResults
    rw [if_neg (by simpa using hq)]
    simp [Doc.syncJumpPosition]
  · intro hq hms
    unfold Doc.applySearchResults
    rw [if_neg (by simpa using hq)]
    simp only [List.isEmpty_iff, hms, if_neg, if_false]
    have hidx : ∀ i, (ms.findIdx? (fun m => decide (min sp (d.pageCount - 1) ≤ m.page)))
        = some i → i < ms.length := by
      intro i hi
      exact (List.findIdx?_eq_some_iff_findIdx_eq.mp hi).1
    set idx := (ms.findIdx? (fun m => decide (min sp (d.pageCount - 1) ≤ m.page))).getD 0
      with hidxdef
    have hlt : idx < ms.length := by
      cases hfind : ms.findIdx? (fun m => decide (min sp (d.pageCount - 1) ≤ m.page)) with
      | none =>
          rw [hidxdef, hfind]
          simp only [Option.getD_none]
          exact List.length_pos.mpr hms
      | some i =>
          rw [hidxdef, hfind]
          simpa using hidx i hfind
    simp only [Doc.applySearchIndex]
    have hcond : ¬((ms.isEmpty : Prop) ∨ idx ≥ ms.length) := by
      rintro (hbad | hbad)
      · exact hms (List.isEmpty_iff.mp hbad)
      · omega
    rw [if_neg hcond]
    split <;> simp [Doc.recordJumpFrom, Doc.syncJumpPosition]

theorem apply_search_results_spec_witness :
    (twoPageDoc.applySearchResults ['q'] sampleMatches 5).1.searchState ≠ none := by
  have h := (apply_search_results_spec twoPageDoc ['q'] sampleMatches 5).2.2
      (by simp) (by simp [sampleMatches])
  rw [h]
  simp

/-! ## Search advancement (C4) -/

theorem forward_target_eq (current total count : Nat) (ht : 0 < total)
    (hcur : current < total) :
    (if count % total = 0 then current else (current + count % total) % total)
      = (current + count) % total := by
  by_cases hz : count % total = 0
  · rw [if_pos hz, Nat.add_mod, hz, Nat.add_zero, Nat.mod_mod_of_dvd _ dvd_rfl,
      Nat.mod_eq_of_lt hcur]
  · rw [if_neg hz, Nat.add_mod current count, Nat.add_mod current (count % total),
      Nat.mod_mod_of_dvd _ dvd_rfl]

theorem backward_target_eq (current total count : Nat) (ht : 0 < total)
    (hcur : current < total) :
    (if count % total = 0 then current
        else (current + total - count % total) % total)
      = (((current : Int) + total - count) % (total : Int)).toNat := by
  have hslt : count % total < total := Nat.mod_lt _ ht
  have hc1 : ((count : Int)) % total = ((count % total : Nat) : Int) := by
    rw [Int.natCast_mod]
  have hc2 : (((count % total : Nat) : Int)) % total = ((count % total : Nat) : Int) := by
    apply Int.emod_eq_of_lt
    · exact Int.natCast_nonneg _
    · exact_mod_cast hslt
  have hA : ((current : Int) + total - count) % total
      = ((current : Int) + total - ((count % total : Nat) : Int)) % total := by
    conv_lhs => rw [Int.sub_emod, hc1]
    conv_rhs => rw [Int.sub_emod, hc2]
  rw [hA]
  by_cases hz : count % total = 0
  · rw [if_pos hz, hz]
    have hB : ((current : Int) + total - ((0 : Nat) : Int)) % total
        = (current : Int) := by
      rw [Nat.cast_zero, sub_zero, Int.add_emod, Int.emod_self, add_zero,
        Int.emod_emod_of_dvd _ dvd_rfl]
      apply Int.emod_eq_of_lt
      · exact Int.natCast_nonneg _
      · exact_mod_cast hcur
    rw [hB, Int.toNat_natCast]
  · rw [if_neg hz]
    have hle : count % total ≤ current + total := by omega
    have hc3 : ((current + total - count % total : Nat) : Int)
        = (current : Int) + total - ((count % total : Nat) : Int) := by
      rw [Nat.cast_sub hle]
      push_cast
      ring
    rw [← hc3, ← Int.natCast_mod, Int.toNat_natCast]

theorem applySearchIndex_spec (d : Doc) (st : SearchState) (index : Nat)
    (hst : d.searchState = some st) (hidx : index < st.matchList.length) :
    (d.applySearchIndex index).1.searchState = some ⟨st.query, st.matchList, some index⟩ ∧
    (d.applySearchIndex index).1.currentPage
      = min (st.matchList.getD index ⟨0, []⟩).page (d.pageCount - 1) ∧
    (d.applySearchIndex index).2
      = decide
          (min (st.matchList.getD index ⟨0, []⟩).page (d.pageCount - 1) ≠ d.currentPage) ∧
    (min (st.matchList.getD index ⟨0, []⟩).page (d.pageCount - 1) ≠ d.currentPage →
      (d.applySearchIndex index).1.viewport = ⟨0, 0⟩ ∧
      (d.applySearchIndex index).1.jumpHistory.backStack
        = pushStack d.jumpHistory.backStack d.currentPosition ∧
      (d.applySearchIndex index).1.jumpHistory.forwardStack = []) ∧
    (min (st.matchList.getD index ⟨0, []⟩).page (d.pageCount - 1) = d.currentPage →
      (d.applySearchIndex index).1.viewport = d.viewport ∧
      (d.applySearchIndex index).1.currentPage = d.currentPage ∧
      (d.applySearchIndex index).1.jumpHistory.backStack
        = d.jumpHistory.backStack) := by
  have hcond : ¬((st.matchList.isEmpty : Prop) ∨ index ≥ st.matchList.length) := by
    rintro (hbad | hbad)
    · rw [List.isEmpty_iff] at hbad
      rw [hbad] at hidx
      simp at hidx
    · omega
  unfold Doc.applySearchIndex
  rw [hst]
  simp only
  rw [if_neg hcond]
  by_cases hch :
      min (st.matchList.getD index ⟨0, []⟩).page (d.pageCount - 1) ≠ d.currentPage
  · rw [if_pos hch]
    have hne : (⟨d.currentPage, d.scale, d.viewport⟩ : DocumentPosition)
        ≠ ⟨min (st.matchList.getD index ⟨0, []⟩).page (d.pageCount - 1), d.scale,
            d.viewport.reset⟩ := by
      intro heq2
      exact hch ((congrArg DocumentPosition.page heq2).symm)
    refine ⟨rfl, rfl, ?_, ?_, ?_⟩
    · exact (decide_eq_true hch).symm
    · intro _
      simp only [Doc.recordJumpFrom, JumpHistory.recordNavigation, Doc.currentPosition,
        Doc.syncJumpPosition, JumpHistory.recordCurrent]
      rw [if_neg hne]
      exact ⟨rfl, rfl, rfl⟩
    · intro hcontra
      exact absurd hcontra hch
  · rw [if_neg hch]
    push_neg at hch
    refine ⟨rfl, ?_, ?_, ?_, ?_⟩
    · exact hch.symm
    · exact (decide_eq_false (fun hx => hx hch)).symm
    · intro hcontra
      exact absurd hch hcontra
    · intro _
      exact ⟨rfl, rfl, rfl⟩

/-- C4: `advance_search` returns `None` when no search is active, `Some false` when the
active search has no matches, and otherwise steps the current index by
`(current + count) mod total` forward or `(current + total - count) mod total`
backward, navigates to that match's page clamped to the document (resetting the
viewport and recording a jump when the page changes), and reports whether the
current page changed. -/
theorem advance_search_spec (d : Doc) (dir : SearchDirection) (count : Nat)
    (hc : 0 < count)
    (hvalid : ∀ st i, d.searchState = some st → st.currentIndex = some i →
      i < st.matchList.length) :
    (d.searchState = none → d.advanceSearch dir count = (none, d)) ∧
    (∀ st, d.searchState = some st → st.matchList = [] →
      d.advanceSearch dir count = (some false, d)) ∧
    (∀ st, d.searchState = some st → st.matchList ≠ [] →
      ∀ target,
        target =
          (match dir with
            | SearchDirection.forward =>
                (st.currentIndex.getD 0 + count) % st.matchList.length
            | SearchDirection.backward =>
                (((st.currentIndex.getD 0 : Int) + st.matchList.length - count)
                    % (st.matchList.length : Int)).toNat) →
        (d.advanceSearch dir count).2.searchState
            = some ⟨st.query, st.matchList, some target⟩ ∧
        (d.advanceSearch dir count).2.currentPage
            = min (st.matchList.getD target ⟨0, []⟩).page (d.pageCount - 1) ∧
        (d.advanceSearch dir count).1
            = some (decide ((d.advanceSearch dir count).2.currentPage ≠ d.currentPage)) ∧
        ((d.advanceSearch dir count).2.currentPage ≠ d.currentPage →
          (d.advanceSearch dir count).2.viewport = ⟨0, 0⟩ ∧
          (d.advanceSearch dir count).2.jumpHistory.backStack
            = pushStack d.jumpHistory.backStack d.currentPosition ∧
          (d.advanceSearch dir count).2.jumpHistory.forwardStack = []) ∧
        ((d.advanceSearch dir count).2.currentPage = d.currentPage →
          (d.advanceSearch dir count).2.viewport = d.viewport ∧
          (d.advanceSearch dir count).2.jumpHistory.backStack
            = d.jumpHistory.backStack)) := by
  refine ⟨?_, ?_, ?_⟩
  · intro h
    unfold Doc.advanceSearch
    rw [if_neg (by omega), h]
  · intro st hst hemp
    unfold Doc.advanceSearch
    rw [if_neg (by omega), hst]
    simp [hemp]
  · intro st hst hne target htarget
    have hlen0 : 0 < st.matchList.length := List.length_pos.mpr hne
    have hcur : st.currentIndex.getD 0 < st.matchList.length := by
      cases hci : st.currentIndex with
      | none => simpa using hlen0
      | some i => simpa using hvalid st i hst hci
    have hred : d.advanceSearch dir count
        = (some (d.applySearchIndex target).2, (d.applySearchIndex target).1) := by
      unfold Doc.advanceSearch
      rw [if_neg (by omega), hst]
      simp only
      rw [if_neg (by simp [List.isEmpty_iff, hne]), if_neg (by omega)]
      cases dir with
      | forward =>
          rw [htarget]
          simp only
          rw [← forward_target_eq (st.currentIndex.getD 0) st.matchList.length count
            hlen0 hcur]
          by_cases hz : count % st.matchList.length = 0
          · rw [if_pos hz, if_pos hz]
          · rw [if_neg hz, if_neg hz]
      | backward =>
          rw [htarget]
          simp only
          rw [← backward_target_eq (st.currentIndex.getD 0) st.matchList.length count
            hlen0 hcur]
          by_cases hz : count % st.matchList.length = 0
          · rw [if_pos hz, if_pos hz]
          · rw [if_neg hz, if_neg hz]
    have htlt : target < st.matchList.length := by
      cases dir with
      | forward =>
          rw [htarget]
          simp only
          exact Nat.mod_lt _ hlen0
      | backward =>
          rw [htarget]
          simp only
          have h1 : ((st.currentIndex.getD 0 : Int) + st.matchList.length - count)
              % (st.matchList.length : Int) < (st.matchList.length : Int) :=
            Int.emod_lt_of_pos _ (by exact_mod_cast hlen0)
          have h2 : 0 ≤ ((st.currentIndex.getD 0 : Int) + st.matchList.length - count)
              % (st.matchList.length : Int) :=
            Int.emod_nonneg _ (by omega)
          omega
    obtain ⟨ha, hb, hc2, hd2, he2⟩ := applySearchIndex_spec d st target hst htlt
    rw [hred]
    simp only
    refine ⟨ha, hb, ?_, ?_, ?_⟩
    · rw [hc2, hb]
    · intro hpg
      rw [hb] at hpg
      exact hd2 hpg
    · intro hpg
      rw [hb] at hpg
      obtain ⟨h1, h2, h3⟩ := he2 hpg
      exact ⟨h1, h3⟩

theorem advance_search_spec_witness :
    (searchDoc.advanceSearch SearchDirection.forward 1).2.searchState
      = some ⟨['q'], sampleMatches, some 1⟩ :=
  ((advance_search_spec searchDoc SearchDirection.forward 1 (by omega)
      (by
        intro st i h1 h2
        have hst : st = ⟨['q'], sampleMatches, some 0⟩ := by
          have h3 : searchDoc.searchState = some ⟨['q'], sampleMatches, some 0⟩ := rfl
          rw [h3] at h1
          exact (Option.some.injEq _ _).mp h1.symm
        subst hst
        simp at h2
        subst h2
        simp [sampleMatches])).2.2
    ⟨['q'], sampleMatches, some 0⟩ rfl (by simp [sampleMatches]) 1
    (by simp [sampleMatches])).1

/-! ## Link navigation (C8) -/

theorem pageLinkEntries_page (p : Nat) (definitions : List LinkDefinition) :
    ∀ l ∈ pageLinkEntries p definitions, l.page = p := by
  intro l hl
  unfold pageLinkEntries at hl
  rw [List.mem_filterMap] at hl
  obtain ⟨defn, -, hdefn⟩ := hl
  by_cases hempty :
      ((defn.rects.map NormalizedRect.clampRect).filter NormalizedRect.isValid).isEmpty
  · rw [if_pos hempty] at hdefn
    cases hdefn
  · rw [if_neg hempty] at hdefn
    cases hdefn
    rfl

theorem buildLinkEntriesAux_sorted (d : Doc) :
    ∀ (remaining start : Nat) (es : List LinkEntry),
      buildLinkEntriesAux d start remaining = Except.ok es →
      (∀ l ∈ es, start ≤ l.page) ∧ es.Pairwise (fun a b => a.page ≤ b.page) := by
  intro remaining
  induction remaining with
  | zero =>
      intro start es h
      unfold buildLinkEntriesAux at h
      simp only [Except.ok.injEq] at h
      subst h
      exact ⟨by simp, List.Pairwise.nil⟩
  | succ n ih =>
      intro start es h
      unfold buildLinkEntriesAux at h
      cases hpl : d.backend.pageLinks start with
      | error e => rw [hpl] at h; cases h
      | ok definitions =>
          rw [hpl] at h
          simp only at h
          cases hrest : buildLinkEntriesAux d (start + 1) n with
          | error e => rw [hrest] at h; cases h
          | ok rest =>
              rw [hrest] at h
              simp only [Except.ok.injEq] at h
              subst h
              obtain ⟨hge, hpw⟩ := ih (start + 1) rest hrest
              have hpages : ∀ l ∈ (if definitions.isEmpty then []
                  else pageLinkEntries start definitions), l.page = start := by
                intro l hl
                split at hl
                · cases hl
                · exact pageLinkEntries_page start definitions l hl
              constructor
              · intro l hl
                rw [List.mem_append] at hl
                rcases hl with hl | hl
                · rw [hpages l hl]
                · exact Nat.le_of_succ_le (hge l hl)
              · rw [List.pairwise_append]
                have hpwsub : ∀ (l : List LinkEntry), (∀ a ∈ l, a.page = start) →
                    l.Pairwise (fun a b => a.page ≤ b.page) := by
                  intro l
                  induction l with
                  | nil => intro _; exact List.Pairwise.nil
                  | cons a as iha =>
                      intro hall
                      refine List.Pairwise.cons ?_
                        (iha (fun b hb => hall b (List.mem_cons_of_mem a hb)))
                      intro b hb
                      rw [hall a (List.mem_cons_self a as),
                        hall b (List.mem_cons_of_mem a hb)]
                refine ⟨hpwsub _ hpages, hpw, ?_⟩
                intro a ha b hb
                rw [hpages a ha]
                exact Nat.le_of_succ_le (hge b hb)

theorem findIdx?_none_of_no_match {α : Type} (p : α → Bool) :
    ∀ (l : List α) (i : Nat), (∀ a ∈ l, p a = false) → List.findIdx? p l i = none := by
  intro l
  induction l with
  | nil => intro i _; rfl
  | cons x xs ih =>
      intro i hall
      rw [List.findIdx?_cons]
      rw [hall x (List.mem_cons_self x xs)]
      simp only [Bool.false_eq_true, if_false]
      exact ih (i + 1) (fun a ha => hall a (List.mem_cons_of_mem x ha))

theorem linkSeed_eq_aux (cur : Nat) :
    ∀ (links : List LinkEntry) (i : Nat),
      links.Pairwise (fun a b => a.page ≤ b.page) →
      ((List.findIdx? (fun l => decide (l.page = cur)) links i).orElse
          (fun _ => List.findIdx? (fun l => decide (cur < l.page)) links i))
        = List.findIdx? (fun l => decide (cur ≤ l.page)) links i := by
  intro links
  induction links with
  | nil => intro i _; rfl
  | cons x xs ih =>
      intro i hsorted
      obtain ⟨hsx, hsxs⟩ := List.pairwise_cons.mp hsorted
      rw [List.findIdx?_cons, List.findIdx?_cons, List.findIdx?_cons]
      by_cases h1 : x.page = cur
      · have hle : cur ≤ x.page := by omega
        simp [h1, hle]
      · by_cases h2 : cur < x.page
        · have hle : cur ≤ x.page := by omega
          have hnone : List.findIdx? (fun l => decide (l.page = cur)) xs = none := by
            apply findIdx?_none_of_no_match
            intro a ha
            have := hsx a ha
            simp only [decide_eq_false_iff_not]
            omega
          simp [h1, h2, hle, hnone]
        · have h3 : ¬(cur ≤ x.page) := by omega
          simp only [h1, h2, h3, decide_False, Bool.false_eq_true, if_false]
          exact ih (i + 1) hsxs

theorem linkSeed_eq (links : List LinkEntry) (cur : Nat)
    (hsorted : links.Pairwise (fun a b => a.page ≤ b.page)) :
    ((links.findIdx? (fun l => decide (l.page = cur))).orElse
        (fun _ => links.findIdx? (fun l => decide (cur < l.page))))
      = links.findIdx? (fun l => decide (cur ≤ l.page)) :=
  linkSeed_eq_aux cur links 0 hsorted

theorem applyLinkIndex_spec (d : Doc) (st : LinkState) (index : Nat)
    (hst : d.linkState = some st) (hidx : index < st.links.length) :
    (d.applyLinkIndex index).1.linkState = some ⟨st.links, some index⟩ ∧
    (d.applyLinkIndex index).1.currentPage
      = min (st.links.getD index ⟨0, [], LinkAction.unsupported⟩).page (d.pageCount - 1) ∧
    (d.applyLinkIndex index).2
      = decide
          (min (st.links.getD index ⟨0, [], LinkAction.unsupported⟩).page (d.pageCount - 1)
            ≠ d.currentPage) := by
  have hcond : ¬((st.links.isEmpty : Prop) ∨ index ≥ st.links.length) := by
    rintro (hbad | hbad)
    · rw [List.isEmpty_iff] at hbad
      rw [hbad] at hidx
      simp at hidx
    · omega
  unfold Doc.applyLinkIndex
  rw [hst]
  simp only
  rw [if_neg hcond]
  by_cases hch :
      min (st.links.getD index ⟨0, [], LinkAction.unsupported⟩).page (d.pageCount - 1)
        ≠ d.currentPage
  · rw [if_pos hch]
    exact ⟨rfl, rfl, (decide_eq_true hch).symm⟩
  · rw [if_neg hch]
    push_neg at hch
    exact ⟨rfl, hch.symm, (decide_eq_false (fun hx => hx hch)).symm⟩

/-- C8: at link-mode activation the current index is the first link on the current page
(else unset) and the built list is page-sorted; in link mode with a non-empty link list,
an unseeded `advance` seeds the index with the first link whose page is at least the
current page (else index 0) and applies it without stepping by `count`; a seeded
`advance` steps by `(current + count) mod total` forward or
`(current + total - count) mod total` backward. -/
theorem advance_link_spec (d : Doc) (dir : SearchDirection) (count : Nat)
    (hc : 0 < count) :
    (∀ d2 d2' : Doc, d2.startLinkMode = Except.ok d2' →
      ∀ st, d2'.linkState = some st →
        st.currentIndex = st.links.findIdx? (fun l => decide (l.page = d2.currentPage)) ∧
          st.links.Pairwise (fun a b => a.page ≤ b.page)) ∧
    (∀ st, d.linkState = some st → st.links ≠ [] → st.currentIndex = none →
      st.links.Pairwise (fun a b => a.page ≤ b.page) →
      ∀ seed,
        seed = (st.links.findIdx? (fun l => decide (d.currentPage ≤ l.page))).getD 0 →
        (d.advanceLink dir count).2.linkState = some ⟨st.links, some seed⟩ ∧
        (d.advanceLink dir count).2.currentPage
          = min (st.links.getD seed ⟨0, [], LinkAction.unsupported⟩).page
              (d.pageCount - 1) ∧
        (d.advanceLink dir count).1
          = some (decide ((d.advanceLink dir count).2.currentPage ≠ d.currentPage))) ∧
    (∀ st i, d.linkState = some st → st.links ≠ [] → st.currentIndex = some i →
      i < st.links.length →
      ∀ target,
        target =
          (match dir with
            | SearchDirection.forward => (i + count) % st.links.length
            | SearchDirection.backward =>
                (((i : Int) + st.links.length - count)
                    % (st.links.length : Int)).toNat) →
        (d.advanceLink dir count).2.linkState = some ⟨st.links, some target⟩ ∧
        (d.advanceLink dir count).2.currentPage
          = min (st.links.getD target ⟨0, [], LinkAction.unsupported⟩).page
              (d.pageCount - 1) ∧
        (d.advanceLink dir count).1
          = some (decide ((d.advanceLink dir count).2.currentPage ≠ d.currentPage))) := by
  refine ⟨?_, ?_, ?_⟩
  · intro d2 d2' hstart st hst
    unfold Doc.startLinkMode at hstart
    cases hbuild : d2.buildLinkEntries with
    | error e => rw [hbuild] at hstart; cases hstart
    | ok entries =>
        rw [hbuild] at hstart
        simp only [Except.ok.injEq] at hstart
        subst hstart
        have hst2 : (⟨entries,
            entries.findIdx? (fun l => decide (l.page = d2.currentPage))⟩ : LinkState)
            = st := by
          have h := hst
          simp only at h
          exact (Option.some.injEq _ _).mp h
        rw [← hst2]
        refine ⟨rfl, ?_⟩
        have hbuild2 : buildLinkEntriesAux d2 0 d2.pageCount = Except.ok entries := by
          have h := hbuild
          unfold Doc.buildLinkEntries at h
          exact h
        exact (buildLinkEntriesAux_sorted d2 d2.pageCount 0 entries hbuild2).2
  · intro st hst hne hci hsorted seed hseed
    have hdesired :
        (((st.links.findIdx? (fun l => decide (l.page = d.currentPage))).orElse
            (fun _ =>
              st.links.findIdx? (fun l => decide (d.currentPage < l.page)))).getD 0)
          = seed := by
      rw [linkSeed_eq st.links d.currentPage hsorted, hseed]
    have hseedlt : seed < st.links.length := by
      cases hfind : st.links.findIdx? (fun l => decide (d.currentPage ≤ l.page)) with
      | none =>
          rw [hseed, hfind]
          simpa using List.length_pos.mpr hne
      | some j =>
          rw [hseed, hfind]
          simpa using (List.findIdx?_eq_some_iff_findIdx_eq.mp hfind).1
    have hred : d.advanceLink dir count
        = (some (({ d with linkState := some { st with currentIndex := some seed }
              } : Doc).applyLinkIndex seed).2,
            (({ d with linkState := some { st with currentIndex := some seed }
              } : Doc).applyLinkIndex seed).1) := by
      unfold Doc.advanceLink
      rw [if_neg (by omega), hst]
      simp only
      rw [if_neg (by simp [List.isEmpty_iff, hne]), hci]
      simp only [hdesired]
    obtain ⟨ha, hb, hc2⟩ := applyLinkIndex_spec
      ({ d with linkState := some { st with currentIndex := some seed } } : Doc)
      ⟨st.links, some seed⟩ seed rfl hseedlt
    rw [hred]
    simp only
    exact ⟨ha, hb, by rw [hc2, hb]⟩
  · intro st i hst hne hci hilt target htarget
    have hlen0 : 0 < st.links.length := List.length_pos.mpr hne
    have hmin : min i (st.links.length - 1) = i := by omega
    have hred : d.advanceLink dir count
        = (some (d.applyLinkIndex target).2, (d.applyLinkIndex target).1) := by
      unfold Doc.advanceLink
      rw [if_neg (by omega), hst]
      simp only
      rw [if_neg (by simp [List.isEmpty_iff, hne]), hci]
      simp only [hmin]
      cases dir with
      | forward =>
          rw [htarget]
          simp only
          rw [← forward_target_eq i st.links.length count hlen0 hilt]
          by_cases hz : count % st.links.length = 0
          · rw [if_pos hz, if_pos hz]
          · rw [if_neg hz, if_neg hz]
      | backward =>
          rw [htarget]
          simp only
          rw [← backward_target_eq i st.links.length count hlen0 hilt]
          by_cases hz : count % st.links.length = 0
          · rw [if_pos hz, if_pos hz]
          · rw [if_neg hz, if_neg hz]
    have htlt : target < st.links.length := by
      cases dir with
      | forward =>
          rw [htarget]
          simp only
          exact Nat.mod_lt _ hlen0
      | backward =>
          rw [htarget]
          simp only
          have h1 : ((i : Int) + st.links.length - count) % (st.links.length : Int)
              < (st.links.length : Int) :=
            Int.emod_lt_of_pos _ (by exact_mod_cast hlen0)
          have h2 : 0 ≤ ((i : Int) + st.links.length - count) % (st.links.length : Int) :=
            Int.emod_nonneg _ (by omega)
          omega
    obtain ⟨ha, hb, hc2⟩ := applyLinkIndex_spec d st target hst htlt
    rw [hred]
    simp only
    exact ⟨ha, hb, by rw [hc2, hb]⟩

theorem advance_link_spec_witness :
    (linkedDoc.advanceLink SearchDirection.forward 1).2.linkState
      = some ⟨sampleLinks, some 1⟩ :=
  ((advance_link_spec linkedDoc SearchDirection.forward 1 (by omega)).2.1
    ⟨sampleLinks, none⟩ rfl (by simp [sampleLinks]) rfl
    (by
      unfold sampleLinks
      refine List.Pairwise.cons ?_ (List.pairwise_singleton _ _)
      intro b hb
      rw [List.mem_singleton] at hb
      subst hb
      show (0 : Nat) ≤ 2
      omega)
    1 (by simp [sampleLinks, linkedDoc, baseDoc])).1

/-! ## C3: render-cache eviction keeps the nearest `CACHE_CAPACITY` keys -/

theorem take_cons_take {α : Type} (k : Nat) (h : α) (t : List α) :
    (h :: t.take k).take k = (h :: t).take k := by
  cases k with
  | zero => rfl
  | succ k =>
    simp [List.take_succ_cons, List.take_take, Nat.min_eq_left (Nat.le_succ k),
      Nat.min_eq_right (Nat.le_succ k)]

theorem take_orderedInsert (a : Nat) :
    ∀ (l : List Nat) (k : Nat),
      ((l.take k).orderedInsert (· ≤ ·) a).take k = (l.orderedInsert (· ≤ ·) a).take k := by
  intro l
  induction l with
  | nil => intro k; rw [List.take_nil]
  | cons h t ih =>
    intro k
    cases k with
    | zero => rfl
    | succ k =>
      simp only [List.take_succ_cons, List.orderedInsert]
      by_cases hah : a ≤ h
      · rw [if_pos hah, if_pos hah]
        simp only [List.take_succ_cons]
        rw [take_cons_take]
      · rw [if_neg hah, if_neg hah]
        simp only [List.take_succ_cons]
        rw [ih k]

theorem sortedDistances_perm (ks ks' : List CacheKey) (ref : Nat) (h : ks.Perm ks') :
    sortedDistances ks ref = sortedDistances ks' ref := by
  unfold sortedDistances
  exact List.eq_of_perm_of_sorted
    ((List.perm_insertionSort _ _).trans
      ((h.map _).trans (List.perm_insertionSort _ _).symm))
    (List.sorted_insertionSort _ _) (List.sorted_insertionSort _ _)

theorem sortedDistances_sorted (ks : List CacheKey) (ref : Nat) :
    (sortedDistances ks ref).Pairwise (· ≤ ·) :=
  List.sorted_insertionSort _ _

theorem sortedDistances_length (ks : List CacheKey) (ref : Nat) :
    (sortedDistances ks ref).length = ks.length := by
  unfold sortedDistances
  rw [(List.perm_insertionSort _ _).length_eq, List.length_map]

theorem sortedDistances_cons (k : CacheKey) (ks : List CacheKey) (ref : Nat) :
    sortedDistances (k :: ks) ref
      = (sortedDistances ks ref).orderedInsert (· ≤ ·) (k.distance ref) := rfl

theorem distLE_total (ref : Nat) :
    IsTotal CacheKey (fun a b => a.distance ref ≤ b.distance ref) :=
  ⟨fun a b => Nat.le_total _ _⟩

theorem distLE_trans (ref : Nat) :
    IsTrans CacheKey (fun a b => a.distance ref ≤ b.distance ref) :=
  ⟨fun _ _ _ => Nat.le_trans⟩

theorem map_distance_insertionSort (ks : List CacheKey) (ref : Nat) :
    ((ks.insertionSort (fun a b => a.distance ref ≤ b.distance ref)).map
        (fun k => k.distance ref))
      = sortedDistances ks ref := by
  haveI := distLE_total ref
  haveI := distLE_trans ref
  unfold sortedDistances
  exact List.eq_of_perm_of_sorted
    (((List.perm_insertionSort _ _).map _).trans (List.perm_insertionSort _ _).symm)
    (List.Pairwise.map _ (fun a b hab => hab) (List.sorted_insertionSort _ _))
    (List.sorted_insertionSort _ _)

theorem cacheInsert_fresh (c : RenderCache) (k : CacheKey) (img : RenderImage)
    (h : k ∉ c.map Prod.fst) : cacheInsert c k img = (k, img) :: c := by
  unfold cacheInsert
  congr 1
  apply List.filter_eq_self.mpr
  intro e he
  simp only [decide_eq_true_eq]
  intro heq
  exact h (heq ▸ List.mem_map_of_mem Prod.fst he)

theorem map_fst_filter_mem (c : RenderCache) (keep : List CacheKey) :
    (c.filter (fun e => decide (e.1 ∈ keep))).map Prod.fst
      = (c.map Prod.fst).filter (fun x => decide (x ∈ keep)) := by
  induction c with
  | nil => rfl
  | cons e t ih =>
    by_cases h : e.1 ∈ keep
    · simp [List.filter_cons, h, ih]
    · simp [List.filter_cons, h, ih]

theorem filter_mem_perm (l keep : List CacheKey) (hl : l.Nodup) (hk : keep.Nodup)
    (hss : ∀ x ∈ keep, x ∈ l) :
    (l.filter (fun x => decide (x ∈ keep))).Perm keep := by
  rw [List.perm_ext_iff_of_nodup (hl.filter _) hk]
  intro x
  simp only [List.mem_filter, decide_eq_true_eq]
  exact ⟨fun h => h.2, fun h => ⟨hss x h, h⟩⟩

theorem storeCachedRender_step (c : RenderCache) (k : CacheKey) (img : RenderImage)
    (ref : Nat) (ins : List CacheKey)
    (hnd : (c.map Prod.fst).Nodup)
    (hfresh : k ∉ ins)
    (hsub : ∀ x ∈ c.map Prod.fst, x ∈ ins)
    (hlen : c.length ≤ CACHE_CAPACITY)
    (hsd : sortedDistances (c.map Prod.fst) ref
      = (sortedDistances ins ref).take CACHE_CAPACITY) :
    ((storeCachedRender c k img ref).map Prod.fst).Nodup ∧
      (∀ x ∈ (storeCachedRender c k img ref).map Prod.fst, x ∈ k :: ins) ∧
      (storeCachedRender c k img ref).length ≤ CACHE_CAPACITY ∧
      sortedDistances ((storeCachedRender c k img ref).map Prod.fst) ref
        = (sortedDistances (k :: ins) ref).take CACHE_CAPACITY := by
  have hkc : k ∉ c.map Prod.fst := fun hx => hfresh (hsub k hx)
  have hci : cacheInsert c k img = (k, img) :: c := cacheInsert_fresh c k img hkc
  have hcap : CACHE_CAPACITY = 10 := rfl
  unfold storeCachedRender
  rw [hci]
  by_cases hover : ((k, img) :: c).length > CACHE_CAPACITY
  · rw [if_pos hover]
    set keysNew := ((k, img) :: c).map Prod.fst with hkeysNew
    set sortK := keysNew.insertionSort
      (fun a b => a.distance ref ≤ b.distance ref) with hsortK
    set keep := sortK.take CACHE_CAPACITY with hkeep
    set res := ((k, img) :: c).filter (fun e => decide (e.1 ∈ keep)) with hres
    have hndNew : keysNew.Nodup := by
      rw [hkeysNew]
      simp only [List.map_cons]
      exact List.nodup_cons.mpr ⟨hkc, hnd⟩
    have hpermSort : sortK.Perm keysNew := List.perm_insertionSort _ _
    have hndSort : sortK.Nodup := hpermSort.nodup_iff.mpr hndNew
    have hndKeep : keep.Nodup := hndSort.sublist (List.take_sublist _ _)
    have hkeepSub : ∀ x ∈ keep, x ∈ keysNew := fun x hx =>
      hpermSort.mem_iff.mp (List.take_subset _ _ hx)
    have hresKeys : res.map Prod.fst = keysNew.filter (fun x => decide (x ∈ keep)) :=
      map_fst_filter_mem _ _
    have hpermRes : (res.map Prod.fst).Perm keep :=
      hresKeys ▸ filter_mem_perm keysNew keep hndNew hndKeep hkeepSub
    have hclen : c.length = CACHE_CAPACITY := by
      have h1 : ((k, img) :: c).length = c.length + 1 := rfl
      omega
    have hsortLen : sortK.length = c.length + 1 := by
      rw [hpermSort.length_eq, hkeysNew]
      simp
    have hkeepLen : keep.length = CACHE_CAPACITY := by
      rw [hkeep, List.length_take, hsortLen, hclen]
      omega
    have hresLen : res.length = CACHE_CAPACITY := by
      have h2 := hpermRes.length_eq
      rw [List.length_map] at h2
      rw [h2, hkeepLen]
    have hsubNew : ∀ x ∈ keysNew, x ∈ k :: ins := by
      rw [hkeysNew]
      simp only [List.map_cons]
      intro x hx
      rcases List.mem_cons.mp hx with rfl | hx
      · exact List.mem_cons_self _ _
      · exact List.mem_cons_of_mem _ (hsub x hx)
    refine ⟨hpermRes.nodup_iff.mpr hndKeep, ?_, by omega, ?_⟩
    · intro x hx
      exact hsubNew x (hkeepSub x (hpermRes.mem_iff.mp hx))
    · have h1 : sortedDistances (res.map Prod.fst) ref = sortedDistances keep ref :=
        sortedDistances_perm _ _ ref hpermRes
      have hmapKeep : keep.map (fun x => x.distance ref)
          = (sortedDistances keysNew ref).take CACHE_CAPACITY := by
        rw [hkeep, List.map_take, hsortK, map_distance_insertionSort]
      have hkeepSorted : (keep.map (fun x => x.distance ref)).Pairwise (· ≤ ·) := by
        rw [hmapKeep]
        exact List.Pairwise.sublist (List.take_sublist _ _) (sortedDistances_sorted _ _)
      have h2 : sortedDistances keep ref
          = (sortedDistances keysNew ref).take CACHE_CAPACITY := by
        have h3 : sortedDistances keep ref = keep.map (fun x => x.distance ref) := by
          unfold sortedDistances
          exact List.Sorted.insertionSort_eq hkeepSorted
        rw [h3, hmapKeep]
      have h4 : sortedDistances keysNew ref
          = (sortedDistances (c.map Prod.fst) ref).orderedInsert (· ≤ ·)
              (k.distance ref) := by
        rw [hkeysNew]
        simp only [List.map_cons]
        exact sortedDistances_cons _ _ _
      rw [h1, h2, h4, hsd, take_orderedInsert, ← sortedDistances_cons]
  · rw [if_neg hover]
    have hlt : c.length + 1 ≤ CACHE_CAPACITY := by
      simp only [List.length_cons, gt_iff_lt, not_lt] at hover
      exact hover
    have hinsLen : ins.length = c.length := by
      have h2 := congrArg List.length hsd
      rw [sortedDistances_length, List.length_take, sortedDistances_length,
        List.length_map] at h2
      omega
    refine ⟨?_, ?_, by simpa using hlt, ?_⟩
    · simp only [List.map_cons]
      exact List.nodup_cons.mpr ⟨hkc, hnd⟩
    · intro x hx
      simp only [List.map_cons] at hx
      rcases List.mem_cons.mp hx with rfl | hx
      · exact List.mem_cons_self _ _
      · exact List.mem_cons_of_mem _ (hsub x hx)
    · have hfull : (sortedDistances ins ref).take CACHE_CAPACITY
          = sortedDistances ins ref :=
        List.take_of_length_le (by rw [sortedDistances_length]; omega)
      have hsd2 : sortedDistances (c.map Prod.fst) ref = sortedDistances ins ref := by
        rw [hsd, hfull]
      have hstep : sortedDistances (((k, img) :: c).map Prod.fst) ref
          = sortedDistances (k :: ins) ref := by
        simp only [List.map_cons]
        rw [sortedDistances_cons, hsd2, ← sortedDistances_cons]
      rw [hstep, List.take_of_length_le]
      rw [sortedDistances_length, List.length_cons]
      omega

theorem storeAll_invariant (ref : Nat) :
    ∀ ps : List (CacheKey × RenderImage), (ps.map Prod.fst).Nodup →
      ((storeAll ps ref).map Prod.fst).Nodup ∧
        (∀ x ∈ (storeAll ps ref).map Prod.fst, x ∈ ps.map Prod.fst) ∧
        (storeAll ps ref).length ≤ CACHE_CAPACITY ∧
        sortedDistances ((storeAll ps ref).map Prod.fst) ref
          = (sortedDistances (ps.map Prod.fst) ref).take CACHE_CAPACITY := by
  intro ps
  induction ps using List.reverseRecOn with
  | nil =>
    intro _
    refine ⟨List.nodup_nil, by simp [storeAll], ?_, rfl⟩
    simp [storeAll, CACHE_CAPACITY]
  | append_singleton ps p ih =>
    intro hnd
    rw [List.map_append] at hnd
    have hperm : (ps.map Prod.fst ++ [p.1]).Perm (p.1 :: ps.map Prod.fst) :=
      List.perm_append_comm
    have hnd2 : (p.1 :: ps.map Prod.fst).Nodup := hperm.nodup_iff.mp hnd
    have hp : p.1 ∉ ps.map Prod.fst := (List.nodup_cons.mp hnd2).1
    have hnd3 : (ps.map Prod.fst).Nodup := (List.nodup_cons.mp hnd2).2
    obtain ⟨ih1, ih2, ih3, ih4⟩ := ih hnd3
    have hstep : storeAll (ps ++ [p]) ref
        = storeCachedRender (storeAll ps ref) p.1 p.2 ref := by
      unfold storeAll
      rw [List.foldl_append]
      rfl
    obtain ⟨g1, g2, g3, g4⟩ :=
      storeCachedRender_step (storeAll ps ref) p.1 p.2 ref (ps.map Prod.fst)
        ih1 hp ih2 ih3 ih4
    rw [hstep]
    refine ⟨g1, ?_, g3, ?_⟩
    · intro x hx
      rw [List.map_append]
      exact hperm.symm.mem_iff.mp (g2 x hx)
    · rw [g4, List.map_append]
      simp only [List.map_cons, List.map_nil]
      rw [sortedDistances_perm _ _ ref hperm]

/-- C3: for every sequence of render-cache puts with pairwise distinct keys, all
performed with the same reference page, after each put the cache holds at most
`CACHE_CAPACITY = 10` entries, every surviving key was inserted so far, the
surviving keys are pairwise distinct, and their sorted distance list equals the
10 smallest distances (with multiplicity) among all keys inserted so far — the
survivors are exactly the nearest 10 keys, ties broken by an arbitrary order. -/
theorem cache_eviction_spec (puts : List (CacheKey × RenderImage)) (ref : Nat)
    (hnd : (puts.map Prod.fst).Nodup) (i : Nat) :
    (storeAll (puts.take i) ref).length ≤ CACHE_CAPACITY ∧
      (∀ x ∈ (storeAll (puts.take i) ref).map Prod.fst,
        x ∈ (puts.take i).map Prod.fst) ∧
      ((storeAll (puts.take i) ref).map Prod.fst).Nodup ∧
      sortedDistances ((storeAll (puts.take i) ref).map Prod.fst) ref
        = (sortedDistances ((puts.take i).map Prod.fst) ref).take CACHE_CAPACITY := by
  have hnd2 : ((puts.take i).map Prod.fst).Nodup := by
    rw [List.map_take]
    exact hnd.sublist (List.take_sublist _ _)
  obtain ⟨h1, h2, h3, h4⟩ := storeAll_invariant ref (puts.take i) hnd2
  exact ⟨h3, h2, h1, h4⟩

theorem cache_eviction_spec_witness :
    (samplePuts.map Prod.fst).Nodup ∧
      ((storeAll (samplePuts.take 12) 0).length ≤ CACHE_CAPACITY ∧
        (∀ x ∈ (storeAll (samplePuts.take 12) 0).map Prod.fst,
          x ∈ (samplePuts.take 12).map Prod.fst) ∧
        ((storeAll (samplePuts.take 12) 0).map Prod.fst).Nodup ∧
        sortedDistances ((storeAll (samplePuts.take 12) 0).map Prod.fst) 0
          = (sortedDistances ((samplePuts.take 12).map Prod.fst) 0).take
              CACHE_CAPACITY) :=
  ⟨by decide, cache_eviction_spec samplePuts 0 (by decide) 12⟩

/-! ## C10: per-document commands frame every other document -/

set_option maxHeartbeats 2000000 in
/-- C10: for every per-document command (everything except `SwitchDocument`),
`Session::apply` leaves the active index unchanged, keeps the document list
length (hence order) unchanged, and leaves every document slot other than the
active one untouched. -/
theorem per_document_frame (s : Session) (c : Command)
    (hpd : c.isPerDocument = true) :
    ((s.apply c).1).active = s.active ∧
      ((s.apply c).1).documents.length = s.documents.length ∧
      ∀ j, j ≠ s.active →
        ((s.apply c).1).documents.get? j = s.documents.get? j := by
  refine ⟨?_, apply_documents_length s c, ?_⟩
  · cases c <;> simp only [Session.apply] <;> (repeat' split) <;>
      simp_all [Session.updateActive, Command.isPerDocument]
  · intro j hj
    have hj2 : s.active ≠ j := Ne.symm hj
    cases c <;> simp only [Session.apply] <;> (repeat' split) <;>
      simp_all [Session.updateActive, Command.isPerDocument, List.getElem?_set_ne]

theorem per_document_frame_witness :
    Command.toggleDarkMode.isPerDocument = true ∧
      ((Session.mk [baseDoc] 0 []).apply Command.toggleDarkMode).1.active = 0 ∧
      (∀ j, j ≠ 0 →
        (((Session.mk [baseDoc] 0 []).apply Command.toggleDarkMode).1).documents.get? j
          = (Session.mk [baseDoc] 0 []).documents.get? j) :=
  ⟨rfl, (per_document_frame ⟨[baseDoc], 0, []⟩ Command.toggleDarkMode rfl).1,
    (per_document_frame ⟨[baseDoc], 0, []⟩ Command.toggleDarkMode rfl).2.2⟩

end Termpdf
